import Mathlib

/-!
# export-google-groups-to-csv: the report generator of `quickstart.go`

A shallow embedding of `quickstart.go`.  The program is sequential and talks to
three outside parties: the file system (`credentials.json`, `token.json`), the
terminal (standard input and output) and the remote directory service
(`Groups.List`, `Members.List`).  A run is modelled as a function from what the
outside parties answer to the chronological list of observable events plus the
way the run ends.

The remote service is a pair of scripts: the answers to the successive
`Groups.List` calls and the answers to the successive `Members.List` calls, each
in call order.  The program is deterministic, so every behaviour of the service
during one run is such a pair.  A call for which the script holds no answer
never returns, and the run hangs there.

Not modelled: nil records inside the slices that the service returns, errors of
the writes to standard output, and the date that `log` puts before a message.

The file has three parts: the embedding of the source (`getGroupsInfo`, the
report part of `main`, the credential functions, `main`), the observations and
the wording of the specification, and the theorems.
-/

set_option linter.dupNamespace false

namespace Quickstart

/-! ## Data model -/

/-- The fields of `admin.Group` the program reads.  `DirectMembersCount` is an
`int64` in the source; it is only ever printed with `%d`. -/
structure Group where
  Id : String
  Name : String
  Email : String
  DirectMembersCount : Int
  Aliases : List String
deriving DecidableEq, Repr

/-- The field of `admin.Member` the program reads. -/
structure Member where
  Email : String
deriving DecidableEq, Repr

/-- The fields of `admin.Groups` (one page of groups) the program reads.  The
slice holds non-nil records. -/
structure Groups where
  Groups : List Group
  NextPageToken : String
deriving DecidableEq, Repr

/-- The field of `admin.Members` the program reads.  The slice holds non-nil
records. -/
structure Members where
  Members : List Member
deriving DecidableEq, Repr

/-- The parameters set on a `srv.Groups.List()` call before `Do()`.  `pageToken`
is `none` when `PageToken(..)` is not called on the request. -/
structure GroupsListCall where
  customer : String
  maxResults : Int
  orderBy : String
  pageToken : Option String
deriving DecidableEq, Repr

/-- What a remote call returns: the value, or the text of the error. -/
inductive Response (α : Type) where
  | ok (value : α)
  | error (err : String)
deriving DecidableEq, Repr

/-- The remote directory service during one run: the answers to the successive
`Groups.List` calls and to the successive `Members.List` calls. -/
structure Remote where
  groupsList : List (Response Groups)
  membersList : List (Response Members)
deriving DecidableEq, Repr

/-- Observable events of a run, in the order they happen. -/
inductive Event where
  -- a write to standard output by one `fmt.Printf`, `fmt.Print` or `fmt.Println`
  | stdout (text : String)
  -- the request `srv.Groups.List()...Do()` is sent
  | groupsListCall (call : GroupsListCall)
  -- the answer to the pending `Groups.List` request arrives
  | groupsListReturn (resp : Response Groups)
  -- the request `srv.Members.List(groupKey).Do()` is sent
  | membersListCall (groupKey : String)
  -- the answer to the pending `Members.List` request arrives
  | membersListReturn (resp : Response Members)
  -- `fmt.Scan(&authCode)` reads standard input
  | scan
  -- `config.Exchange(ctx, authCode)` is sent to the token endpoint
  | exchange (authCode : String)
  -- `json.NewEncoder(f).Encode(token)` writes `data` to the file just
  -- created or truncated at `path`
  | fileWrite (path : String) (data : String)
deriving DecidableEq, Repr

/-- How a piece of the program ends: it returns, it calls `log.Fatalf` (the
message goes to standard error and the process exits), or it waits for ever on
a remote call. -/
inductive Outcome where
  | done
  | fatal (msg : String)
  | hang
deriving DecidableEq, Repr

/-- A piece of a run: the events it produced, how it ended, and the part of the
remote scripts it has not consumed. -/
structure Run where
  events : List Event
  outcome : Outcome
  remote : Remote
deriving DecidableEq, Repr

/-! ## `getGroupsInfo` -/

/-- The alias loop of `getGroupsInfo` (lines 79-86): `counter` is `aliascounter`,
`len` is `len(u.Aliases)`. -/
def aliasLoop (len : Nat) : Nat → List String → List Event
  | _, [] => []
  | counter, value :: rest =>
    (if counter != len then Event.stdout (value ++ ",") else Event.stdout value)
      :: aliasLoop len (counter + 1) rest

/-- The member loop of `getGroupsInfo` (lines 99-106): `len` is
`len(m.Members)`. -/
def memberLoop (len : Nat) : Nat → List Member → List Event
  | _, [] => []
  | counter, value :: rest =>
    (if counter != len then Event.stdout (value.Email ++ ",")
      else Event.stdout value.Email)
      :: memberLoop len (counter + 1) rest

/-- What `getGroupsInfo` does for one group before `Members.List` answers
(lines 74-91). -/
def rowHead (u : Group) : List Event :=
  [Event.stdout (u.Id ++ "," ++ u.Name ++ "," ++ u.Email ++ ","
      ++ toString u.DirectMembersCount ++ ","),
    Event.stdout "\""]
    ++ aliasLoop u.Aliases.length 1 u.Aliases
    ++ [Event.stdout "\",", Event.membersListCall u.Id]

/-- What `getGroupsInfo` does for one group once `Members.List` has answered
with `m` (lines 97-107). -/
def rowTail (m : Members) : List Event :=
  [Event.stdout "\""]
    ++ memberLoop m.Members.length 1 m.Members
    ++ [Event.stdout "\"\n"]

/-- The `range r.Groups` loop of `getGroupsInfo` (lines 73-108). -/
def groupLoop : List Group → Remote → Run
  | [], srv => ⟨[], Outcome.done, srv⟩
  | u :: rest, srv =>
    match srv.membersList with
    | [] => ⟨rowHead u, Outcome.hang, srv⟩
    | Response.error err :: answers =>
      ⟨rowHead u ++ [Event.membersListReturn (Response.error err)],
        Outcome.fatal ("Unable to retrieve users in domain: " ++ err),
        { srv with membersList := answers }⟩
    | Response.ok m :: answers =>
      let next := groupLoop rest { srv with membersList := answers }
      ⟨rowHead u ++ [Event.membersListReturn (Response.ok m)] ++ rowTail m
          ++ next.events,
        next.outcome, next.remote⟩

/-- The function `getGroupsInfo(r, srv)`. -/
def getGroupsInfo (r : Groups) (srv : Remote) : Run :=
  groupLoop r.Groups srv

/-! ## `main`, lines 131-167: the report generator -/

/-- The request built by `srv.Groups.List().Customer("my_customer")
.MaxResults(500).OrderBy("email")`, with `PageToken(tok)` when a token is
given. -/
def listRequest (pageToken : Option String) : GroupsListCall :=
  ⟨"my_customer", 500, "email", pageToken⟩

/-- The `for` loop of `main` (lines 150-167).  `r` is the page last received,
`answers` the answers to the `Groups.List` calls still to come, `members` the
answers to the `Members.List` calls still to come.  `getGroupsInfo` calls
`Members.List` only, so the loop goes on with the `Groups.List` answers it
holds. -/
def pageLoop : List (Response Groups) → Groups → List (Response Members) → Run
  | answers, r, members =>
    if r.NextPageToken != "" then
      let call := Event.groupsListCall (listRequest (some r.NextPageToken))
      match answers with
      | [] => ⟨[call], Outcome.hang, ⟨[], members⟩⟩
      | Response.error err :: answers =>
        ⟨[call, Event.groupsListReturn (Response.error err)],
          Outcome.fatal ("Unable to retrieve next page in the list: " ++ err),
          ⟨answers, members⟩⟩
      | Response.ok r :: answers =>
        if r.Groups.length == 0 then
          let next := pageLoop answers r members
          ⟨[call, Event.groupsListReturn (Response.ok r),
              Event.stdout
                "Unable to retrieve next page in the list: Empty Groups returned.\n"]
              ++ next.events,
            next.outcome, next.remote⟩
        else
          let info := getGroupsInfo r ⟨answers, members⟩
          match info.outcome with
          | Outcome.done =>
            let next := pageLoop answers r info.remote.membersList
            ⟨[call, Event.groupsListReturn (Response.ok r)] ++ info.events
                ++ next.events,
              next.outcome, next.remote⟩
          | stop =>
            ⟨[call, Event.groupsListReturn (Response.ok r)] ++ info.events,
              stop, info.remote⟩
    else ⟨[], Outcome.done, ⟨answers, members⟩⟩

/-- The header row printed at line 132. -/
def header : String := "ID,名前,アドレス,グループ人数,別名,メンバー\n"

/-- The report generator: `main` from line 131 to its end, run against the
service `srv`. -/
def report (srv : Remote) : Run :=
  let call := Event.groupsListCall (listRequest none)
  match srv.groupsList with
  | [] => ⟨[Event.stdout header, call], Outcome.hang, srv⟩
  | Response.error err :: answers =>
    ⟨[Event.stdout header, call, Event.groupsListReturn (Response.error err)],
      Outcome.fatal ("Unable to retrieve group lists in domain: " ++ err),
      ⟨answers, srv.membersList⟩⟩
  | Response.ok r :: answers =>
    if r.Groups.length == 0 then
      let next := pageLoop answers r srv.membersList
      ⟨[Event.stdout header, call, Event.groupsListReturn (Response.ok r),
          Event.stdout "No groups found.\n"] ++ next.events,
        next.outcome, next.remote⟩
    else
      let info := getGroupsInfo r ⟨answers, srv.membersList⟩
      match info.outcome with
      | Outcome.done =>
        let next := pageLoop answers r info.remote.membersList
        ⟨[Event.stdout header, call, Event.groupsListReturn (Response.ok r)]
            ++ info.events ++ next.events,
          next.outcome, next.remote⟩
      | stop =>
        ⟨[Event.stdout header, call, Event.groupsListReturn (Response.ok r)]
            ++ info.events,
          stop, info.remote⟩

/-! ## Credentials: `tokenFromFile`, `getTokenFromWeb`, `saveToken`, `getClient` -/

/-- The type `oauth2.Token`.  The program never reads a field of it. -/
structure Token where
  AccessToken : String
  TokenType : String
  RefreshToken : String
  Expiry : String
deriving DecidableEq, Repr

/-- The type `oauth2.Config`.  The program never reads a field of it. -/
structure Config where
  ClientID : String
  ClientSecret : String
  AuthURL : String
  TokenURL : String
  RedirectURL : String
  Scopes : List String
deriving DecidableEq, Repr

/-- The value `config.Client(ctx, tok)`: the HTTP client bound to the token. -/
structure Client where
  config : Config
  token : Token
deriving DecidableEq, Repr

/-- The files the program can see: for every path, the content that opening and
reading it gives, or the text of the error of `os.Open` / `ioutil.ReadFile`
(the file is absent or cannot be read). -/
abbrev Files := String → Response String

/-- The file state after `data` has replaced the content of `path`. -/
def Files.put (fs : Files) (path data : String) : Files :=
  fun p => if p = path then Response.ok data else fs p

/-- The library functions and outside parties the credential code calls, taken
as parameters. -/
structure Outside where
  -- `google.ConfigFromJSON(b, scope)`
  configFromJSON : String → String → Response Config
  -- `config.AuthCodeURL(state, oauth2.AccessTypeOffline)`
  authCodeURL : Config → String → String
  -- `json.NewDecoder(f).Decode(tok)` on the content of the file
  decodeToken : String → Response Token
  -- what `json.NewEncoder(f).Encode(token)` writes
  encodeToken : Token → String
  -- `fmt.Scan(&authCode)`: the word typed on standard input
  scan : Response String
  -- `config.Exchange(ctx, authCode)`
  exchange : Config → String → Response Token
  -- `os.OpenFile(path, os.O_RDWR|os.O_CREATE|os.O_TRUNC, 0600)`
  openFile : String → Response Unit
  -- `admin.New(client)`
  adminNew : Client → Response Unit
  -- the directory service behind the handle that `admin.New` returns
  remote : Remote

/-- The function `tokenFromFile(file)`: the token and a nil error, or the
error. -/
def tokenFromFile (w : Outside) (fs : Files) (file : String) : Response Token :=
  match fs file with
  | Response.error err => Response.error err
  | Response.ok content => w.decodeToken content

/-- The function `getTokenFromWeb(config)`: its events and the token it returns,
or the message of its `log.Fatalf`. -/
def getTokenFromWeb (w : Outside) (config : Config) :
    List Event × Response Token :=
  let authURL := w.authCodeURL config "state-token"
  let ask := Event.stdout
    ("Go to the following link in your browser then type the "
      ++ "authorization code: \n" ++ authURL ++ "\n")
  match w.scan with
  | Response.error err =>
    ([ask, Event.scan],
      Response.error ("Unable to read authorization code: " ++ err))
  | Response.ok authCode =>
    match w.exchange config authCode with
    | Response.error err =>
      ([ask, Event.scan, Event.exchange authCode],
        Response.error ("Unable to retrieve token from web: " ++ err))
    | Response.ok tok => ([ask, Event.scan, Event.exchange authCode], Response.ok tok)

/-- A run of the credential code: its events, the value it returns or the
message of its `log.Fatalf`, and the files afterwards. -/
structure Auth (α : Type) where
  events : List Event
  result : Response α
  files : Files

/-- The function `saveToken(path, token)`.  The error of `Encode` is dropped by
the source. -/
def saveToken (w : Outside) (fs : Files) (path : String) (token : Token) :
    Auth Unit :=
  let say := Event.stdout ("Saving credential file to: " ++ path ++ "\n")
  match w.openFile path with
  | Response.error err =>
    ⟨[say], Response.error ("Unable to cache oauth token: " ++ err), fs⟩
  | Response.ok _ =>
    ⟨[say, Event.fileWrite path (w.encodeToken token)], Response.ok (),
      fs.put path (w.encodeToken token)⟩

/-- The function `getClient(config)`. -/
def getClient (w : Outside) (fs : Files) (config : Config) : Auth Client :=
  let tokFile := "token.json"
  match tokenFromFile w fs tokFile with
  | Response.ok tok => ⟨[], Response.ok ⟨config, tok⟩, fs⟩
  | Response.error _ =>
    match getTokenFromWeb w config with
    | (web, Response.error msg) => ⟨web, Response.error msg, fs⟩
    | (web, Response.ok tok) =>
      let saved := saveToken w fs tokFile tok
      match saved.result with
      | Response.error msg => ⟨web ++ saved.events, Response.error msg, saved.files⟩
      | Response.ok _ =>
        ⟨web ++ saved.events, Response.ok ⟨config, tok⟩, saved.files⟩

/-- The constant `admin.AdminDirectoryGroupReadonlyScope` of the directory
API. -/
def AdminDirectoryGroupReadonlyScope : String :=
  "https://www.googleapis.com/auth/admin.directory.group.readonly"

/-- A whole run of the program: its events, how it ended, and the files
afterwards. -/
structure Program where
  events : List Event
  outcome : Outcome
  files : Files

/-- The function `main()`. -/
def main (w : Outside) (fs : Files) : Program :=
  match fs "credentials.json" with
  | Response.error err =>
    ⟨[], Outcome.fatal ("Unable to read client secret file: " ++ err), fs⟩
  | Response.ok b =>
    match w.configFromJSON b AdminDirectoryGroupReadonlyScope with
    | Response.error err =>
      ⟨[], Outcome.fatal
        ("Unable to parse client secret file to config: " ++ err), fs⟩
    | Response.ok config =>
      let auth := getClient w fs config
      match auth.result with
      | Response.error msg => ⟨auth.events, Outcome.fatal msg, auth.files⟩
      | Response.ok client =>
        match w.adminNew client with
        | Response.error err =>
          ⟨auth.events,
            Outcome.fatal ("Unable to retrieve directory Client " ++ err),
            auth.files⟩
        | Response.ok _ =>
          let rep := report w.remote
          ⟨auth.events ++ rep.events, rep.outcome, auth.files⟩

/-! ## Observations on a run -/

/-- The text on standard output after the given events. -/
def stdoutOf : List Event → String
  | [] => ""
  | Event.stdout text :: rest => text ++ stdoutOf rest
  | _ :: rest => stdoutOf rest

/-- The path and data of a file write event. -/
def Event.written : Event → Option (String × String)
  | Event.fileWrite path data => some (path, data)
  | _ => none

/-- The file writes among the events, in order: path and data. -/
def fileWrites (events : List Event) : List (String × String) :=
  events.filterMap Event.written

/-- The request of a `Groups.List` call event. -/
def Event.groupsCall : Event → Option GroupsListCall
  | Event.groupsListCall call => some call
  | _ => none

/-- The answer of a `Groups.List` return event. -/
def Event.groupsReturn : Event → Option (Response Groups)
  | Event.groupsListReturn resp => some resp
  | _ => none

/-- The group key of a `Members.List` call event. -/
def Event.membersCall : Event → Option String
  | Event.membersListCall groupKey => some groupKey
  | _ => none

/-- The answer of a `Members.List` return event. -/
def Event.membersReturn : Event → Option (Response Members)
  | Event.membersListReturn resp => some resp
  | _ => none

/-- Whether the event is a `Groups.List` request or answer. -/
def Event.isGroupsTraffic : Event → Bool
  | Event.groupsListCall _ => true
  | Event.groupsListReturn _ => true
  | _ => false

/-- Whether the event is the failure of a remote call. -/
def Event.isFailure : Event → Bool
  | Event.groupsListReturn (Response.error _) => true
  | Event.membersListReturn (Response.error _) => true
  | _ => false

/-- Whether the event is a remote request. -/
def Event.isCall : Event → Bool
  | Event.groupsListCall _ => true
  | Event.membersListCall _ => true
  | _ => false

/-- The `Groups.List` requests among the events, in order. -/
def groupsCalls (events : List Event) : List GroupsListCall :=
  events.filterMap Event.groupsCall

/-- The `Groups.List` answers among the events, in order. -/
def groupsReturns (events : List Event) : List (Response Groups) :=
  events.filterMap Event.groupsReturn

/-- The group keys of the `Members.List` requests among the events, in order. -/
def membersCalls (events : List Event) : List String :=
  events.filterMap Event.membersCall

/-- The `Members.List` answers among the events, in order. -/
def membersReturns (events : List Event) : List (Response Members) :=
  events.filterMap Event.membersReturn

/-- The `Groups.List` requests and answers among the events, in order. -/
def groupsTraffic (events : List Event) : List Event :=
  events.filter Event.isGroupsTraffic

/-! ## The output as the specification words it -/

/-- A data row as the specification words it: identifier, name, email and
decimal member count as they are, then the aliases joined by commas inside one
pair of double quotes, then the member emails joined by commas inside one pair
of double quotes, then the line terminator. -/
def rowLine (u : Group) (m : Members) : String :=
  u.Id ++ "," ++ u.Name ++ "," ++ u.Email ++ "," ++ toString u.DirectMembersCount
    ++ "," ++ "\"" ++ ",".intercalate u.Aliases ++ "\""
    ++ "," ++ "\"" ++ ",".intercalate (m.Members.map Member.Email) ++ "\"" ++ "\n"

/-- The first five columns of a data row, each followed by its comma. -/
def rowStart (u : Group) : String :=
  u.Id ++ "," ++ u.Name ++ "," ++ u.Email ++ "," ++ toString u.DirectMembersCount
    ++ "," ++ "\"" ++ ",".intercalate u.Aliases ++ "\"" ++ ","

/-- The notice for a first page without groups. -/
def noGroupsNotice : String := "No groups found.\n"

/-- The notice for a later page without groups. -/
def emptyPageNotice : String :=
  "Unable to retrieve next page in the list: Empty Groups returned.\n"

/-- A whole line of the report. -/
inductive Line where
  | headerLine
  | noGroupsLine
  | emptyPageLine
  | row (u : Group) (m : Members)
deriving DecidableEq, Repr

/-- The text of a line, line terminator included. -/
def Line.text : Line → String
  | Line.headerLine => header
  | Line.noGroupsLine => noGroupsNotice
  | Line.emptyPageLine => emptyPageNotice
  | Line.row u m => rowLine u m

/-- The group and member list of a data row; nothing for the other lines. -/
def Line.asRow : Line → Option (Group × Members)
  | Line.row u m => some (u, m)
  | _ => none

/-- The text of a list of lines. -/
def linesText : List Line → String
  | [] => ""
  | l :: rest => l.text ++ linesText rest

/-- The answer of `Members.List` that carries the member list of a pair. -/
def okMembers (p : Group × Members) : Response Members := Response.ok p.2

/-- The data rows of a list of groups paired with their member lists. -/
def rowLines (rows : List (Group × Members)) : List Line :=
  rows.map fun p => Line.row p.1 p.2

/-- The events of one group whose `Members.List` call is answered with a member
list: `rowHead`, the answer, `rowTail`. -/
def rowEvents (p : Group × Members) : List Event :=
  rowHead p.1 ++ [Event.membersListReturn (Response.ok p.2)] ++ rowTail p.2

/-- The events of successive groups whose `Members.List` calls are all
answered with a member list. -/
def rowsEvents : List (Group × Members) → List Event
  | [] => []
  | p :: rest => rowEvents p ++ rowsEvents rest

/-- A page together with the member lists that `Members.List` returns for its
groups: the groups with their member lists, and the continuation token. -/
abbrev Page := List (Group × Members) × String

/-- The page of groups that `Groups.List` returns for a `Page`. -/
def Page.groups (p : Page) : Groups := ⟨p.1.map Prod.fst, p.2⟩

/-- The answer of `Groups.List` that carries a page. -/
def okPage (p : Page) : Response Groups := Response.ok p.groups

/-- The groups of successive pages with their member lists, in page order then
in-page order. -/
def allRows : List Page → List (Group × Members)
  | [] => []
  | p :: rest => p.1 ++ allRows rest

/-- The lines of the first page: the notice when it has no group, else one row
per group. -/
def firstLines (p : Page) : List Line :=
  if p.1 = [] then [Line.noGroupsLine] else rowLines p.1

/-- The lines of the pages after the first: for each page the notice when it has
no group, else one row per group. -/
def laterLines : List Page → List Line
  | [] => []
  | p :: rest =>
    (if p.1 = [] then [Line.emptyPageLine] else rowLines p.1) ++ laterLines rest

/-- The events of the pagination loop when the pages after the one carrying
`tok` are answered one after the other. -/
def laterEvents : String → List Page → List Event
  | _, [] => []
  | tok, p :: rest =>
    [Event.groupsListCall (listRequest (some tok)), Event.groupsListReturn (okPage p)]
      ++ (if p.1 = [] then [Event.stdout emptyPageNotice] else rowsEvents p.1)
      ++ laterEvents p.2 rest

/-- A token chain: `tok` followed by `toks`, all non-empty but the last, which is
empty. -/
def Chain : String → List String → Prop
  | tok, [] => tok = ""
  | tok, next :: rest => tok ≠ "" ∧ Chain next rest

/-- The service that answers the successive `Groups.List` calls with the given
pages and the successive `Members.List` calls with the member lists of their
groups, and then goes on with the answers `moreGroups` and `moreMembers`. -/
def scripted (pages : List Page) (moreGroups : List (Response Groups))
    (moreMembers : List (Response Members)) : Remote :=
  ⟨pages.map okPage ++ moreGroups, (allRows pages).map okMembers ++ moreMembers⟩

/-- The events of the first page once it is received: the notice when it has no
group, else the events of its rows. -/
def firstEvents (p : Page) : List Event :=
  if p.1 = [] then [Event.stdout noGroupsNotice] else rowsEvents p.1

/-- The `Groups.List` requests `calls` and answers `returns` of a piece of a
run are linked from the token `tok`: every request is built by `listRequest`,
the first carries `tok`, and each later one carries the non-empty token of the
page that the answer of the same rank as its predecessor holds. -/
def Linked (tok : Option String) (calls : List GroupsListCall)
    (returns : List (Response Groups)) : Prop :=
  (∀ c ∈ calls, c = listRequest c.pageToken)
  ∧ (∀ c, calls.head? = some c → c.pageToken = tok)
  ∧ (∀ i c, calls[i + 1]? = some c →
      ∃ page, returns[i]? = some (Response.ok page) ∧ page.NextPageToken ≠ ""
        ∧ c.pageToken = some page.NextPageToken)

/-- The `Groups.List` requests and answers of a piece of a run are paired from
the token `tok`: the first event, if any, is the request carrying `tok`; every
later request comes right after the arrival of a page and carries the token of
that page; every answer comes right after a request. -/
def Paired (tok : Option String) (traffic : List Event) : Prop :=
  (∀ e, traffic.head? = some e → e = Event.groupsListCall (listRequest tok))
  ∧ (∀ j c, traffic[j + 1]? = some (Event.groupsListCall c) →
      ∃ page, traffic[j]? = some (Event.groupsListReturn (Response.ok page))
        ∧ c.pageToken = some page.NextPageToken)
  ∧ (∀ j resp, traffic[j + 1]? = some (Event.groupsListReturn resp) →
      ∃ c, traffic[j]? = some (Event.groupsListCall c))

/-- No event of the list is the failure of a remote call. -/
def Clean (events : List Event) : Prop :=
  ∀ e ∈ events, e.isFailure = false

/-- What the events of a piece of a run look like, by the way it ended.  After a
normal end no call has failed and the output is made of whole lines.  After a
`log.Fatalf` the events are: events without failure whose output is made of
whole lines, then either a `Groups.List` request and its failure, or the events
of a row up to the `Members.List` request and its failure. -/
def Sound (events : List Event) (outcome : Outcome) : Prop :=
  match outcome with
  | Outcome.done => Clean events ∧ ∃ lines, stdoutOf events = linesText lines
  | Outcome.hang => Clean events
  | Outcome.fatal msg =>
    ∃ init lines, Clean init ∧ stdoutOf init = linesText lines
      ∧ ((∃ c err,
            events = init ++ [Event.groupsListCall c,
              Event.groupsListReturn (Response.error err)]
            ∧ (msg = "Unable to retrieve group lists in domain: " ++ err
              ∨ msg = "Unable to retrieve next page in the list: " ++ err))
        ∨ (∃ u err,
            events = init ++ rowHead u ++ [Event.membersListReturn (Response.error err)]
            ∧ msg = "Unable to retrieve users in domain: " ++ err))

/-! ## Examples -/

/-- The group of the specification's scenario. -/
def g1 : Group := ⟨"g1", "Eng", "eng@co.com", 2, []⟩

/-- The two members of the specification's scenario. -/
def g1Members : Members := ⟨[⟨"a@co.com"⟩, ⟨"b@co.com"⟩]⟩

/-- A service whose first page holds the group `g1` and whose `Members.List`
call for it fails. -/
def failingMembers : Remote :=
  ⟨[Response.ok ⟨[g1], ""⟩], [Response.error "boom"]⟩

/-- A service with a first page holding `g1` and a token, and a second page
without groups and without token. -/
def twoPages : Remote :=
  ⟨[Response.ok ⟨[g1], "t"⟩, Response.ok ⟨[], ""⟩], [Response.ok g1Members]⟩

/-- A token held in the cache file of the examples. -/
def cachedToken : Token := ⟨"cached-access", "Bearer", "cached-refresh", "2030-01-01"⟩

/-- A token that the token endpoint of the examples returns. -/
def webToken : Token := ⟨"web-access", "Bearer", "web-refresh", "2031-01-01"⟩

/-- A configuration for the examples. -/
def demoConfig : Config :=
  ⟨"id", "secret", "https://auth.example/auth", "https://auth.example/token",
    "urn:ietf:wg:oauth:2.0:oob", [AdminDirectoryGroupReadonlyScope]⟩

/-- The outside parties of the examples: the cache content `cached` decodes to
`cachedToken`, the user types `code`, the token endpoint returns `webToken`, and
the cache file can be opened for writing. -/
def demoOutside : Outside where
  configFromJSON := fun _ _ => Response.ok demoConfig
  authCodeURL := fun config state => config.AuthURL ++ "?state=" ++ state
  decodeToken := fun content =>
    if content = "cached" then Response.ok cachedToken
    else Response.error "invalid character"
  encodeToken := fun token => token.AccessToken ++ "\n"
  scan := Response.ok "code"
  exchange := fun _ _ => Response.ok webToken
  openFile := fun _ => Response.ok ()
  adminNew := fun _ => Response.ok ()
  remote := twoPages

/-- Files of the examples with a decodable token cache. -/
def cachedFiles : Files :=
  fun path =>
    if path = "token.json" then Response.ok "cached"
    else if path = "credentials.json" then Response.ok "secret"
    else Response.error "no such file or directory"

/-- Files of the examples without token cache. -/
def freshFiles : Files :=
  fun path =>
    if path = "credentials.json" then Response.ok "secret"
    else Response.error "no such file or directory"

/-- The outside parties of the examples, except that the cache file cannot be
opened for writing. -/
def lockedOutside : Outside :=
  { demoOutside with openFile := fun _ => Response.error "permission denied" }

/-- Files of the examples with a token cache whose content does not decode. -/
def staleFiles : Files :=
  fun path =>
    if path = "token.json" then Response.ok "stale"
    else if path = "credentials.json" then Response.ok "secret"
    else Response.error "no such file or directory"

/-! ## Text lemmas -/

theorem stdoutOf_append (a b : List Event) :
    stdoutOf (a ++ b) = stdoutOf a ++ stdoutOf b := by
  induction a with
  | nil => simp [stdoutOf]
  | cons e a ih => cases e <;> simp [stdoutOf, ih, String.append_assoc]

theorem intercalate_go_acc (acc s : String) (l : List String) :
    String.intercalate.go acc s l = acc ++ String.intercalate.go "" s l := by
  induction l generalizing acc with
  | nil => simp [String.intercalate.go]
  | cons a l ih =>
    rw [String.intercalate.go, ih (acc ++ s ++ a), String.intercalate.go,
      ih ("" ++ s ++ a)]
    simp [String.append_assoc]

theorem intercalate_single (s a : String) : s.intercalate [a] = a := by
  simp [String.intercalate, String.intercalate.go]

theorem intercalate_cons_cons (s a b : String) (l : List String) :
    s.intercalate (a :: b :: l) = a ++ s ++ s.intercalate (b :: l) := by
  simp only [String.intercalate]
  rw [String.intercalate.go, intercalate_go_acc (a ++ s ++ b), intercalate_go_acc b]
  simp [String.append_assoc]

theorem stdoutOf_aliasLoop (len : Nat) (values : List String) :
    ∀ counter, counter + values.length = len + 1 →
      stdoutOf (aliasLoop len counter values) = ",".intercalate values := by
  induction values with
  | nil => intro _ _; simp [aliasLoop, stdoutOf, String.intercalate]
  | cons v rest ih =>
    intro counter h
    cases rest with
    | nil =>
      have hc : counter = len := by simpa using h
      simp [aliasLoop, stdoutOf, hc, intercalate_single]
    | cons b l =>
      have hc : counter ≠ len := by simp at h; omega
      have hn := ih (counter + 1) (by simp at h ⊢; omega)
      rw [intercalate_cons_cons]
      simp only [aliasLoop] at hn ⊢
      simp [hc, stdoutOf] at hn ⊢
      rw [hn]

theorem memberLoop_eq (len : Nat) (values : List Member) :
    ∀ counter, memberLoop len counter values
      = aliasLoop len counter (values.map Member.Email) := by
  induction values with
  | nil => intro _; rfl
  | cons v rest ih => intro counter; simp [memberLoop, aliasLoop, ih]

theorem quote_comma : ("\"" ++ "," : String) = "\"," := by decide

theorem quote_newline : ("\"" ++ "\n" : String) = "\"\n" := by decide

theorem stdoutOf_rowHead (u : Group) : stdoutOf (rowHead u) = rowStart u := by
  have h := stdoutOf_aliasLoop u.Aliases.length u.Aliases 1 (by omega)
  unfold rowHead rowStart
  rw [stdoutOf_append, stdoutOf_append, h]
  simp only [stdoutOf, String.append_assoc, String.append_empty, quote_comma]

theorem stdoutOf_rowTail (m : Members) :
    stdoutOf (rowTail m)
      = "\"" ++ ",".intercalate (m.Members.map Member.Email) ++ "\"" ++ "\n" := by
  have h := stdoutOf_aliasLoop m.Members.length (m.Members.map Member.Email) 1
    (by simp; omega)
  unfold rowTail
  rw [stdoutOf_append, stdoutOf_append, memberLoop_eq, h]
  simp only [stdoutOf, String.append_assoc, String.append_empty, quote_newline]

theorem rowLine_eq (u : Group) (m : Members) :
    rowLine u m = rowStart u
      ++ ("\"" ++ ",".intercalate (m.Members.map Member.Email) ++ "\"" ++ "\n") := by
  simp only [rowLine, rowStart, String.append_assoc]

theorem stdoutOf_row (u : Group) (m : Members) :
    stdoutOf (rowHead u ++ [Event.membersListReturn (Response.ok m)] ++ rowTail m)
      = rowLine u m := by
  rw [stdoutOf_append, stdoutOf_append, stdoutOf_rowHead, stdoutOf_rowTail, rowLine_eq]
  simp only [stdoutOf, String.append_assoc, String.append_empty, String.empty_append]

/-! ## `getGroupsInfo` -/

theorem groupLoop_nil (srv : Remote) : groupLoop [] srv = ⟨[], Outcome.done, srv⟩ :=
  rfl

theorem groupLoop_cons_ok (u : Group) (more : List Group)
    (answers : List (Response Groups)) (m : Members) (ms : List (Response Members)) :
    groupLoop (u :: more) ⟨answers, Response.ok m :: ms⟩
      = ⟨rowEvents (u, m) ++ (groupLoop more ⟨answers, ms⟩).events,
          (groupLoop more ⟨answers, ms⟩).outcome,
          (groupLoop more ⟨answers, ms⟩).remote⟩ :=
  rfl

theorem groupLoop_cons_error (u : Group) (more : List Group)
    (answers : List (Response Groups)) (err : String) (ms : List (Response Members)) :
    groupLoop (u :: more) ⟨answers, Response.error err :: ms⟩
      = ⟨rowHead u ++ [Event.membersListReturn (Response.error err)],
          Outcome.fatal ("Unable to retrieve users in domain: " ++ err),
          ⟨answers, ms⟩⟩ :=
  rfl

theorem groupLoop_cons_nil (u : Group) (more : List Group)
    (answers : List (Response Groups)) :
    groupLoop (u :: more) ⟨answers, []⟩ = ⟨rowHead u, Outcome.hang, ⟨answers, []⟩⟩ :=
  rfl

theorem groupLoop_rows (rows : List (Group × Members)) (more : List Group)
    (answers : List (Response Groups)) (rest : List (Response Members)) :
    groupLoop (rows.map Prod.fst ++ more) ⟨answers, rows.map okMembers ++ rest⟩
      = ⟨rowsEvents rows ++ (groupLoop more ⟨answers, rest⟩).events,
          (groupLoop more ⟨answers, rest⟩).outcome,
          (groupLoop more ⟨answers, rest⟩).remote⟩ := by
  induction rows with
  | nil => simp [rowsEvents]
  | cons p rows ih =>
    show groupLoop (p.1 :: (rows.map Prod.fst ++ more))
      ⟨answers, Response.ok p.2 :: (rows.map okMembers ++ rest)⟩ = _
    rw [groupLoop_cons_ok, ih]
    simp only [rowsEvents, List.append_assoc]

theorem stdoutOf_rowsEvents (rows : List (Group × Members)) :
    stdoutOf (rowsEvents rows) = linesText (rowLines rows) := by
  induction rows with
  | nil => rfl
  | cons p rows ih =>
    simp only [rowsEvents, rowEvents, rowLines, List.map_cons, linesText, Line.text]
    rw [stdoutOf_append, stdoutOf_row]
    simp only [rowLines] at ih
    rw [ih]

theorem groupLoop_all (rows : List (Group × Members))
    (answers : List (Response Groups)) (rest : List (Response Members)) :
    groupLoop (rows.map Prod.fst) ⟨answers, rows.map okMembers ++ rest⟩
      = ⟨rowsEvents rows, Outcome.done, ⟨answers, rest⟩⟩ := by
  have h := groupLoop_rows rows [] answers rest
  simpa [groupLoop] using h

/-- C2: for every group and every member list that `Members.List` returns for
it, `getGroupsInfo` prints exactly the line made of the identifier, the name,
the email and the decimal member count as they are, the aliases joined by
commas inside one pair of double quotes, the member emails joined by commas
inside one pair of double quotes, and a newline; the same holds row after row
for a page of several groups; an empty list gives `""`; and the two examples of
the specification come out as written. -/
theorem C2_getGroupsInfo_row :
    (∀ (u : Group) (m : Members) (tok : String) (answers : List (Response Groups))
        (rest : List (Response Members)),
        stdoutOf (getGroupsInfo ⟨[u], tok⟩ ⟨answers, Response.ok m :: rest⟩).events
          = u.Id ++ "," ++ u.Name ++ "," ++ u.Email ++ ","
            ++ toString u.DirectMembersCount ++ ","
            ++ "\"" ++ ",".intercalate u.Aliases ++ "\"" ++ ","
            ++ "\"" ++ ",".intercalate (m.Members.map Member.Email) ++ "\"" ++ "\n"
        ∧ (getGroupsInfo ⟨[u], tok⟩ ⟨answers, Response.ok m :: rest⟩).outcome
          = Outcome.done)
    ∧ (∀ (rows : List (Group × Members)) (tok : String)
        (answers : List (Response Groups)) (rest : List (Response Members)),
        stdoutOf (getGroupsInfo ⟨rows.map Prod.fst, tok⟩
            ⟨answers, rows.map okMembers ++ rest⟩).events
          = linesText (rows.map fun p => Line.row p.1 p.2))
    ∧ (∀ (i n e : String) (c : Int) (tok : String),
        stdoutOf (getGroupsInfo ⟨[⟨i, n, e, c, []⟩], tok⟩
            ⟨[], [Response.ok ⟨[]⟩]⟩).events
          = i ++ "," ++ n ++ "," ++ e ++ "," ++ toString c ++ "," ++ "\"\""
            ++ "," ++ "\"\"" ++ "\n")
    ∧ (∀ (i n e : String) (c : Int) (m : Members),
        stdoutOf (getGroupsInfo ⟨[⟨i, n, e, c, ["a@x.com", "b@x.com"]⟩], ""⟩
            ⟨[], [Response.ok m]⟩).events
          = i ++ "," ++ n ++ "," ++ e ++ "," ++ toString c ++ ","
            ++ "\"a@x.com,b@x.com\"" ++ ","
            ++ "\"" ++ ",".intercalate (m.Members.map Member.Email) ++ "\"" ++ "\n")
    ∧ stdoutOf (getGroupsInfo ⟨[⟨"g1", "Eng", "eng@co.com", 2, []⟩], ""⟩
          ⟨[], [Response.ok ⟨[⟨"a@co.com"⟩, ⟨"b@co.com"⟩]⟩]⟩).events
        = "g1,Eng,eng@co.com,2,\"\",\"a@co.com,b@co.com\"\n" := by
  have one : ∀ (u : Group) (m : Members) (tok : String)
      (answers : List (Response Groups)) (rest : List (Response Members)),
      getGroupsInfo ⟨[u], tok⟩ ⟨answers, Response.ok m :: rest⟩
        = ⟨rowsEvents [(u, m)], Outcome.done, ⟨answers, rest⟩⟩ :=
    fun u m tok answers rest => groupLoop_all [(u, m)] answers rest
  have text : ∀ (u : Group) (m : Members),
      stdoutOf (rowsEvents [(u, m)]) = rowLine u m := by
    intro u m
    rw [stdoutOf_rowsEvents]
    simp only [rowLines, List.map, linesText, Line.text, String.append_empty]
  refine ⟨?_, ?_, ?_, ?_, ?_⟩
  · intro u m tok answers rest
    rw [one, text]
    exact ⟨rfl, rfl⟩
  · intro rows tok answers rest
    unfold getGroupsInfo
    rw [groupLoop_all, stdoutOf_rowsEvents]
    rfl
  · intro i n e c tok
    rw [one, text]
    simp only [rowLine, String.append_assoc]
    rfl
  · intro i n e c m
    rw [one, text]
    simp only [rowLine, String.append_assoc]
    rfl
  · decide

/-! ## The pagination loop -/

theorem pageLoop_nil (r : Groups) (members : List (Response Members)) :
    pageLoop [] r members
      = if r.NextPageToken != "" then
          ⟨[Event.groupsListCall (listRequest (some r.NextPageToken))], Outcome.hang,
            ⟨[], members⟩⟩
        else ⟨[], Outcome.done, ⟨[], members⟩⟩ :=
  rfl

theorem pageLoop_cons_error (err : String) (answers : List (Response Groups))
    (r : Groups) (members : List (Response Members)) :
    pageLoop (Response.error err :: answers) r members
      = if r.NextPageToken != "" then
          ⟨[Event.groupsListCall (listRequest (some r.NextPageToken)),
              Event.groupsListReturn (Response.error err)],
            Outcome.fatal ("Unable to retrieve next page in the list: " ++ err),
            ⟨answers, members⟩⟩
        else ⟨[], Outcome.done, ⟨Response.error err :: answers, members⟩⟩ :=
  rfl

theorem pageLoop_cons_ok (p : Groups) (answers : List (Response Groups))
    (r : Groups) (members : List (Response Members)) :
    pageLoop (Response.ok p :: answers) r members
      = if r.NextPageToken != "" then
          if p.Groups.length == 0 then
            ⟨[Event.groupsListCall (listRequest (some r.NextPageToken)),
                Event.groupsListReturn (Response.ok p), Event.stdout emptyPageNotice]
                ++ (pageLoop answers p members).events,
              (pageLoop answers p members).outcome,
              (pageLoop answers p members).remote⟩
          else
            match (getGroupsInfo p ⟨answers, members⟩).outcome with
            | Outcome.done =>
              ⟨[Event.groupsListCall (listRequest (some r.NextPageToken)),
                  Event.groupsListReturn (Response.ok p)]
                  ++ (getGroupsInfo p ⟨answers, members⟩).events
                  ++ (pageLoop answers p
                        (getGroupsInfo p ⟨answers, members⟩).remote.membersList).events,
                (pageLoop answers p
                  (getGroupsInfo p ⟨answers, members⟩).remote.membersList).outcome,
                (pageLoop answers p
                  (getGroupsInfo p ⟨answers, members⟩).remote.membersList).remote⟩
            | stop =>
              ⟨[Event.groupsListCall (listRequest (some r.NextPageToken)),
                  Event.groupsListReturn (Response.ok p)]
                  ++ (getGroupsInfo p ⟨answers, members⟩).events,
                stop, (getGroupsInfo p ⟨answers, members⟩).remote⟩
        else ⟨[], Outcome.done, ⟨Response.ok p :: answers, members⟩⟩ :=
  rfl

theorem pageLoop_stop (answers : List (Response Groups)) (r : Groups)
    (members : List (Response Members)) (h : r.NextPageToken = "") :
    pageLoop answers r members = ⟨[], Outcome.done, ⟨answers, members⟩⟩ := by
  cases answers with
  | nil => simp [pageLoop_nil, h]
  | cons a answers =>
    cases a with
    | ok p => simp [pageLoop_cons_ok, h]
    | error err => simp [pageLoop_cons_error, h]

theorem pageLoop_hang (r : Groups) (members : List (Response Members))
    (h : r.NextPageToken ≠ "") :
    pageLoop [] r members
      = ⟨[Event.groupsListCall (listRequest (some r.NextPageToken))], Outcome.hang,
          ⟨[], members⟩⟩ := by
  simp [pageLoop_nil, h]

theorem pageLoop_error (err : String) (answers : List (Response Groups)) (r : Groups)
    (members : List (Response Members)) (h : r.NextPageToken ≠ "") :
    pageLoop (Response.error err :: answers) r members
      = ⟨[Event.groupsListCall (listRequest (some r.NextPageToken)),
            Event.groupsListReturn (Response.error err)],
          Outcome.fatal ("Unable to retrieve next page in the list: " ++ err),
          ⟨answers, members⟩⟩ := by
  simp [pageLoop_cons_error, h]

theorem pageLoop_empty (p : Groups) (answers : List (Response Groups)) (r : Groups)
    (members : List (Response Members)) (h : r.NextPageToken ≠ "")
    (hp : p.Groups = []) :
    pageLoop (Response.ok p :: answers) r members
      = ⟨[Event.groupsListCall (listRequest (some r.NextPageToken)),
            Event.groupsListReturn (Response.ok p), Event.stdout emptyPageNotice]
            ++ (pageLoop answers p members).events,
          (pageLoop answers p members).outcome,
          (pageLoop answers p members).remote⟩ := by
  rw [pageLoop_cons_ok]
  simp [h, hp]

theorem pageLoop_groups (p : Groups) (answers : List (Response Groups)) (r : Groups)
    (members : List (Response Members)) (h : r.NextPageToken ≠ "")
    (hp : p.Groups ≠ []) :
    pageLoop (Response.ok p :: answers) r members
      = match (getGroupsInfo p ⟨answers, members⟩).outcome with
        | Outcome.done =>
          ⟨[Event.groupsListCall (listRequest (some r.NextPageToken)),
              Event.groupsListReturn (Response.ok p)]
              ++ (getGroupsInfo p ⟨answers, members⟩).events
              ++ (pageLoop answers p
                    (getGroupsInfo p ⟨answers, members⟩).remote.membersList).events,
            (pageLoop answers p
              (getGroupsInfo p ⟨answers, members⟩).remote.membersList).outcome,
            (pageLoop answers p
              (getGroupsInfo p ⟨answers, members⟩).remote.membersList).remote⟩
        | stop =>
          ⟨[Event.groupsListCall (listRequest (some r.NextPageToken)),
              Event.groupsListReturn (Response.ok p)]
              ++ (getGroupsInfo p ⟨answers, members⟩).events,
            stop, (getGroupsInfo p ⟨answers, members⟩).remote⟩ := by
  rw [pageLoop_cons_ok]
  simp [h, hp]

theorem chain_of_tokens (toks : List String) :
    ∀ tok : String, (∀ t ∈ (tok :: toks).dropLast, t ≠ "") →
      (tok :: toks).getLast? = some "" → Chain tok toks := by
  induction toks with
  | nil =>
    intro tok _ hlast
    simpa [Chain] using hlast
  | cons next rest ih =>
    intro tok hmid hlast
    refine ⟨hmid tok (by simp [List.dropLast]), ih next ?_ ?_⟩
    · intro t ht
      exact hmid t (by simp only [List.dropLast_cons₂, List.mem_cons]; exact Or.inr ht)
    · simpa [List.getLast?_cons_cons] using hlast

theorem pageLoop_pages (later : List Page) :
    ∀ (r : Groups) (moreGroups : List (Response Groups))
      (moreMembers : List (Response Members)),
      Chain r.NextPageToken (later.map Prod.snd) →
      pageLoop (later.map okPage ++ moreGroups) r
          ((allRows later).map okMembers ++ moreMembers)
        = ⟨laterEvents r.NextPageToken later, Outcome.done,
            ⟨moreGroups, moreMembers⟩⟩ := by
  induction later with
  | nil =>
    intro r moreGroups moreMembers h
    simpa [laterEvents, allRows] using pageLoop_stop moreGroups r moreMembers h
  | cons p ps ih =>
    intro r moreGroups moreMembers h
    obtain ⟨hne, hc⟩ := h
    have hnext := ih p.groups moreGroups moreMembers hc
    show pageLoop (Response.ok p.groups :: (ps.map okPage ++ moreGroups)) r _ = _
    by_cases hp : p.1 = []
    · rw [pageLoop_empty _ _ _ _ hne (by simp [Page.groups, hp])]
      simp only [allRows, hp, List.nil_append, hnext, laterEvents, if_true]
      rfl
    · rw [pageLoop_groups _ _ _ _ hne (by simpa [Page.groups] using hp)]
      have hinfo : getGroupsInfo p.groups
          ⟨ps.map okPage ++ moreGroups,
            (allRows (p :: ps)).map okMembers ++ moreMembers⟩
          = ⟨rowsEvents p.1, Outcome.done,
              ⟨ps.map okPage ++ moreGroups,
                (allRows ps).map okMembers ++ moreMembers⟩⟩ := by
        simp only [getGroupsInfo, Page.groups, allRows, List.map_append,
          List.append_assoc]
        exact groupLoop_all p.1 _ _
      rw [hinfo]
      simp only [hnext, laterEvents, hp, if_false, List.append_assoc]
      rfl

/-! ## What the events of rows and pages show -/

theorem aliasLoop_stdout (len : Nat) (values : List String) :
    ∀ counter, ∀ e ∈ aliasLoop len counter values, ∃ text, e = Event.stdout text := by
  induction values with
  | nil => intro _ e he; simp [aliasLoop] at he
  | cons v rest ih =>
    intro counter e he
    simp only [aliasLoop, List.mem_cons] at he
    rcases he with he | he
    · split at he <;> exact ⟨_, he⟩
    · exact ih _ e he

theorem rowHead_shape (u : Group) :
    ∀ e ∈ rowHead u, (∃ text, e = Event.stdout text) ∨ e = Event.membersListCall u.Id := by
  intro e he
  simp only [rowHead, List.mem_append, List.mem_cons, List.mem_singleton,
    List.not_mem_nil, or_false] at he
  rcases he with ((he | he) | he) | (he | he)
  · exact Or.inl ⟨_, he⟩
  · exact Or.inl ⟨_, he⟩
  · exact Or.inl (aliasLoop_stdout _ _ _ e he)
  · exact Or.inl ⟨_, he⟩
  · exact Or.inr he

theorem rowTail_shape (m : Members) : ∀ e ∈ rowTail m, ∃ text, e = Event.stdout text := by
  intro e he
  simp only [rowTail, List.mem_append, List.mem_cons, List.mem_singleton,
    List.not_mem_nil, or_false] at he
  rcases he with (he | he) | he
  · exact ⟨_, he⟩
  · rw [memberLoop_eq] at he
    exact aliasLoop_stdout _ _ _ e he
  · exact ⟨_, he⟩

theorem groupsTraffic_rowHead (u : Group) : groupsTraffic (rowHead u) = [] := by
  rw [groupsTraffic, List.filter_eq_nil_iff]
  intro e he
  rcases rowHead_shape u e he with ⟨t, rfl⟩ | rfl <;> simp [Event.isGroupsTraffic]

theorem groupsTraffic_rowTail (m : Members) : groupsTraffic (rowTail m) = [] := by
  rw [groupsTraffic, List.filter_eq_nil_iff]
  intro e he
  rcases rowTail_shape m e he with ⟨t, rfl⟩
  simp [Event.isGroupsTraffic]

theorem groupsTraffic_append (a b : List Event) :
    groupsTraffic (a ++ b) = groupsTraffic a ++ groupsTraffic b := by
  simp [groupsTraffic]

theorem groupsTraffic_rowsEvents (rows : List (Group × Members)) :
    groupsTraffic (rowsEvents rows) = [] := by
  induction rows with
  | nil => rfl
  | cons p rows ih =>
    simp only [rowsEvents, rowEvents, groupsTraffic_append, groupsTraffic_rowHead,
      groupsTraffic_rowTail, ih, List.append_nil, List.nil_append]
    rfl

theorem groupsCalls_eq (events : List Event) :
    groupsCalls events = (groupsTraffic events).filterMap Event.groupsCall := by
  induction events with
  | nil => rfl
  | cons e events ih =>
    simp only [groupsCalls, groupsTraffic] at ih ⊢
    cases e <;> simp [List.filterMap_cons, List.filter_cons, Event.groupsCall,
      Event.isGroupsTraffic, ih]

theorem membersCalls_append (a b : List Event) :
    membersCalls (a ++ b) = membersCalls a ++ membersCalls b := by
  simp [membersCalls]

theorem membersCalls_stdout (events : List Event)
    (h : ∀ e ∈ events, ∃ text, e = Event.stdout text) : membersCalls events = [] := by
  rw [membersCalls, List.filterMap_eq_nil_iff]
  intro e he
  rcases h e he with ⟨t, rfl⟩
  rfl

theorem membersCalls_rowHead (u : Group) : membersCalls (rowHead u) = [u.Id] := by
  unfold rowHead
  rw [membersCalls_append, membersCalls_append,
    membersCalls_stdout _ (aliasLoop_stdout _ _ _)]
  rfl

theorem membersCalls_rowsEvents (rows : List (Group × Members)) :
    membersCalls (rowsEvents rows) = rows.map fun p => p.1.Id := by
  induction rows with
  | nil => rfl
  | cons p rows ih =>
    simp only [rowsEvents, rowEvents, membersCalls_append, membersCalls_rowHead,
      membersCalls_stdout _ (rowTail_shape _), ih, List.map_cons]
    rfl

theorem linesText_append (a b : List Line) :
    linesText (a ++ b) = linesText a ++ linesText b := by
  induction a with
  | nil => simp [linesText]
  | cons l a ih => simp [linesText, ih, String.append_assoc]

theorem stdoutOf_laterEvents (later : List Page) :
    ∀ tok, stdoutOf (laterEvents tok later) = linesText (laterLines later) := by
  induction later with
  | nil => intro _; rfl
  | cons p ps ih =>
    intro tok
    simp only [laterEvents, laterLines]
    rw [stdoutOf_append, ih, linesText_append, stdoutOf_append]
    by_cases hp : p.1 = []
    · simp only [hp, if_true, stdoutOf, linesText, Line.text, String.append_empty,
        String.empty_append]
    · simp only [hp, if_false, stdoutOf, stdoutOf_rowsEvents, String.empty_append]

theorem membersCalls_laterEvents (later : List Page) :
    ∀ tok, membersCalls (laterEvents tok later)
      = (allRows later).map fun p => p.1.Id := by
  induction later with
  | nil => intro _; rfl
  | cons p ps ih =>
    intro tok
    simp only [laterEvents, allRows, List.map_append]
    rw [membersCalls_append, ih, membersCalls_append]
    by_cases hp : p.1 = []
    · simp [hp, membersCalls, Event.membersCall]
    · simp only [hp, if_false, membersCalls_rowsEvents]
      simp [membersCalls, Event.membersCall]

theorem groupsTraffic_laterEvents (later : List Page) :
    ∀ tok, groupsTraffic (laterEvents tok later)
      = match later with
        | [] => []
        | p :: ps =>
          Event.groupsListCall (listRequest (some tok))
            :: Event.groupsListReturn (okPage p)
            :: groupsTraffic (laterEvents p.2 ps) := by
  cases later with
  | nil => intro _; rfl
  | cons p ps =>
    intro tok
    simp only [laterEvents]
    rw [groupsTraffic_append, groupsTraffic_append]
    by_cases hp : p.1 = []
    · simp [hp, groupsTraffic, Event.isGroupsTraffic]
    · simp only [hp, if_false, groupsTraffic_rowsEvents]
      simp [groupsTraffic, Event.isGroupsTraffic]

/-! ## The report generator -/

theorem report_nil (members : List (Response Members)) :
    report ⟨[], members⟩
      = ⟨[Event.stdout header, Event.groupsListCall (listRequest none)], Outcome.hang,
          ⟨[], members⟩⟩ :=
  rfl

theorem report_error (err : String) (answers : List (Response Groups))
    (members : List (Response Members)) :
    report ⟨Response.error err :: answers, members⟩
      = ⟨[Event.stdout header, Event.groupsListCall (listRequest none),
            Event.groupsListReturn (Response.error err)],
          Outcome.fatal ("Unable to retrieve group lists in domain: " ++ err),
          ⟨answers, members⟩⟩ :=
  rfl

theorem report_empty (p : Groups) (answers : List (Response Groups))
    (members : List (Response Members)) (hp : p.Groups = []) :
    report ⟨Response.ok p :: answers, members⟩
      = ⟨[Event.stdout header, Event.groupsListCall (listRequest none),
            Event.groupsListReturn (Response.ok p), Event.stdout noGroupsNotice]
            ++ (pageLoop answers p members).events,
          (pageLoop answers p members).outcome,
          (pageLoop answers p members).remote⟩ := by
  simp [report, hp, noGroupsNotice]

theorem report_groups (p : Groups) (answers : List (Response Groups))
    (members : List (Response Members)) (hp : p.Groups ≠ []) :
    report ⟨Response.ok p :: answers, members⟩
      = match (getGroupsInfo p ⟨answers, members⟩).outcome with
        | Outcome.done =>
          ⟨[Event.stdout header, Event.groupsListCall (listRequest none),
              Event.groupsListReturn (Response.ok p)]
              ++ (getGroupsInfo p ⟨answers, members⟩).events
              ++ (pageLoop answers p
                    (getGroupsInfo p ⟨answers, members⟩).remote.membersList).events,
            (pageLoop answers p
              (getGroupsInfo p ⟨answers, members⟩).remote.membersList).outcome,
            (pageLoop answers p
              (getGroupsInfo p ⟨answers, members⟩).remote.membersList).remote⟩
        | stop =>
          ⟨[Event.stdout header, Event.groupsListCall (listRequest none),
              Event.groupsListReturn (Response.ok p)]
              ++ (getGroupsInfo p ⟨answers, members⟩).events,
            stop, (getGroupsInfo p ⟨answers, members⟩).remote⟩ := by
  simp [report, hp]

theorem report_pages (first : Page) (later : List Page)
    (moreGroups : List (Response Groups)) (moreMembers : List (Response Members))
    (h : Chain first.2 (later.map Prod.snd)) :
    report (scripted (first :: later) moreGroups moreMembers)
      = ⟨[Event.stdout header, Event.groupsListCall (listRequest none),
            Event.groupsListReturn (okPage first)]
            ++ firstEvents first ++ laterEvents first.2 later,
          Outcome.done, ⟨moreGroups, moreMembers⟩⟩ := by
  have hnext := pageLoop_pages later first.groups moreGroups moreMembers h
  show report ⟨Response.ok first.groups :: (later.map okPage ++ moreGroups), _⟩ = _
  by_cases hp : first.1 = []
  · rw [report_empty _ _ _ (by simp [Page.groups, hp])]
    simp only [allRows, hp, List.nil_append, hnext, firstEvents, if_true]
    rfl
  · rw [report_groups _ _ _ (by simpa [Page.groups] using hp)]
    have hinfo : getGroupsInfo first.groups
        ⟨later.map okPage ++ moreGroups,
          (allRows (first :: later)).map okMembers ++ moreMembers⟩
        = ⟨rowsEvents first.1, Outcome.done,
            ⟨later.map okPage ++ moreGroups,
              (allRows later).map okMembers ++ moreMembers⟩⟩ := by
      simp only [getGroupsInfo, Page.groups, allRows, List.map_append,
        List.append_assoc]
      exact groupLoop_all first.1 _ _
    rw [hinfo]
    simp only [hnext, firstEvents, hp, if_false, List.append_assoc]
    rfl

theorem stdoutOf_firstEvents (p : Page) :
    stdoutOf (firstEvents p) = linesText (firstLines p) := by
  by_cases hp : p.1 = []
  · simp only [firstEvents, firstLines, hp, if_true, stdoutOf, linesText, Line.text]
  · simp only [firstEvents, firstLines, hp, if_false, stdoutOf_rowsEvents]

theorem asRow_rowLines (rows : List (Group × Members)) :
    (rowLines rows).filterMap Line.asRow = rows := by
  induction rows with
  | nil => rfl
  | cons p rows ih =>
    simp only [rowLines, List.map_cons, List.filterMap_cons, Line.asRow] at ih ⊢
    rw [ih]

theorem asRow_firstLines (p : Page) : (firstLines p).filterMap Line.asRow = p.1 := by
  by_cases hp : p.1 = []
  · simp [firstLines, hp, Line.asRow]
  · simp only [firstLines, hp, if_false, asRow_rowLines]

theorem asRow_laterLines (later : List Page) :
    (laterLines later).filterMap Line.asRow = allRows later := by
  induction later with
  | nil => rfl
  | cons p ps ih =>
    simp only [laterLines, allRows, List.filterMap_append, ih]
    by_cases hp : p.1 = []
    · simp [hp, Line.asRow]
    · simp only [hp, if_false, asRow_rowLines]

theorem length_allRows (pages : List Page) :
    (allRows pages).length = (pages.map fun p => p.groups.Groups.length).sum := by
  induction pages with
  | nil => rfl
  | cons p ps ih => simp [allRows, Page.groups, ih]

/-- C1: when `Groups.List` returns a finite sequence of pages, every page but
the last with a non-empty continuation token and the last with an empty one,
and every `Members.List` call succeeds, the report ends normally and its output
is the header followed by the lines of the pages in page order; the data rows
among these lines are exactly the rows of the groups in page order then in-page
order, one per group, so their number is the total number of groups; and
`Members.List` is called once per group in the same order. -/
theorem C1_one_row_per_group (first : Page) (later : List Page)
    (moreGroups : List (Response Groups)) (moreMembers : List (Response Members))
    (hmid : ∀ t ∈ (first.2 :: later.map Prod.snd).dropLast, t ≠ "")
    (hlast : (first.2 :: later.map Prod.snd).getLast? = some "") :
    (report (scripted (first :: later) moreGroups moreMembers)).outcome = Outcome.done
    ∧ stdoutOf (report (scripted (first :: later) moreGroups moreMembers)).events
        = header ++ linesText (firstLines first ++ laterLines later)
    ∧ (firstLines first ++ laterLines later).filterMap Line.asRow
        = allRows (first :: later)
    ∧ ((firstLines first ++ laterLines later).filterMap Line.asRow).length
        = ((first :: later).map fun p => p.groups.Groups.length).sum
    ∧ membersCalls (report (scripted (first :: later) moreGroups moreMembers)).events
        = (allRows (first :: later)).map fun p => p.1.Id := by
  have hrun := report_pages first later moreGroups moreMembers
    (chain_of_tokens _ _ hmid hlast)
  have hrows : (firstLines first ++ laterLines later).filterMap Line.asRow
      = allRows (first :: later) := by
    rw [List.filterMap_append, asRow_firstLines, asRow_laterLines]
    rfl
  refine ⟨by rw [hrun], ?_, hrows, by rw [hrows, length_allRows], ?_⟩
  · rw [hrun]
    simp only [stdoutOf_append, stdoutOf_firstEvents, stdoutOf_laterEvents,
      linesText_append]
    simp only [stdoutOf, String.empty_append, String.append_empty, String.append_assoc]
  · rw [hrun]
    simp only [membersCalls_append, membersCalls_laterEvents, allRows, List.map_append]
    by_cases hp : first.1 = []
    · simp [firstEvents, hp, membersCalls, Event.membersCall]
    · simp only [firstEvents, hp, if_false, membersCalls_rowsEvents]
      simp [membersCalls, Event.membersCall]

/-- C1 at two pages: a first page with the group `g1` and the token `t`, then a
page without groups and without token. -/
theorem C1_one_row_per_group_witness :
    ((∀ t ∈ (("t" : String) :: List.map Prod.snd [(([], "") : Page)]).dropLast, t ≠ "")
      ∧ (("t" : String) :: List.map Prod.snd [(([], "") : Page)]).getLast? = some "")
    ∧ (report (scripted [([(g1, g1Members)], "t"), ([], "")] [] [])).outcome
        = Outcome.done
    ∧ stdoutOf (report (scripted [([(g1, g1Members)], "t"), ([], "")] [] [])).events
        = header ++ linesText (firstLines ([(g1, g1Members)], "t") ++ laterLines [([], "")])
    ∧ (firstLines ([(g1, g1Members)], "t") ++ laterLines [([], "")]).filterMap Line.asRow
        = allRows [([(g1, g1Members)], "t"), ([], "")]
    ∧ ((firstLines ([(g1, g1Members)], "t") ++ laterLines [([], "")]).filterMap
          Line.asRow).length
        = ([(([(g1, g1Members)], "t") : Page), ([], "")].map
            fun (p : Page) => p.groups.Groups.length).sum
    ∧ membersCalls (report (scripted [([(g1, g1Members)], "t"), ([], "")] [] [])).events
        = (allRows [([(g1, g1Members)], "t"), ([], "")]).map fun p => p.1.Id :=
  ⟨⟨by decide, by decide⟩,
    C1_one_row_per_group ([(g1, g1Members)], "t") [([], "")] [] []
      (by decide) (by decide)⟩

theorem getLast?_cons_of_some {α : Type} (a x : α) (l : List α)
    (h : l.getLast? = some x) : (a :: l).getLast? = some x := by
  cases l with
  | nil => simp at h
  | cons b l => simpa [List.getLast?_cons_cons] using h

theorem groupsReturns_eq (events : List Event) :
    groupsReturns events = (groupsTraffic events).filterMap Event.groupsReturn := by
  induction events with
  | nil => rfl
  | cons e events ih =>
    simp only [groupsReturns, groupsTraffic] at ih ⊢
    cases e <;> simp [List.filterMap_cons, List.filter_cons, Event.groupsReturn,
      Event.isGroupsTraffic, ih]

theorem traffic_calls (later : List Page) :
    ∀ tok, (groupsTraffic (laterEvents tok later)).filterMap Event.groupsCall
      = ((tok :: later.map Prod.snd).dropLast).map fun t => listRequest (some t) := by
  induction later with
  | nil => intro _; rfl
  | cons p ps ih =>
    intro tok
    rw [groupsTraffic_laterEvents]
    simp only [List.filterMap_cons, Event.groupsCall, ih, List.map_cons,
      List.dropLast_cons₂]

theorem traffic_returns (later : List Page) :
    ∀ tok, (groupsTraffic (laterEvents tok later)).filterMap Event.groupsReturn
      = later.map okPage := by
  induction later with
  | nil => intro _; rfl
  | cons p ps ih =>
    intro tok
    rw [groupsTraffic_laterEvents]
    simp only [List.filterMap_cons, Event.groupsReturn, ih, List.map_cons]

theorem traffic_last (later : List Page) :
    ∀ tok, (groupsTraffic (laterEvents tok later)).getLast?
      = later.getLast?.map fun p => Event.groupsListReturn (okPage p) := by
  induction later with
  | nil => intro _; rfl
  | cons p ps ih =>
    intro tok
    rw [groupsTraffic_laterEvents]
    cases ps with
    | nil => rfl
    | cons q qs =>
      have h := ih p.2
      rw [List.getLast?_cons_cons]
      simp only [List.getLast?_cons_cons] at h ⊢
      cases hq : (q :: qs).getLast? with
      | none => simp at hq
      | some x =>
        rw [hq] at h
        exact getLast?_cons_of_some _ _ _ (getLast?_cons_of_some _ _ _ h)

theorem traffic_report_pages (first : Page) (later : List Page) :
    groupsTraffic ([Event.stdout header, Event.groupsListCall (listRequest none),
        Event.groupsListReturn (okPage first)]
        ++ firstEvents first ++ laterEvents first.2 later)
      = Event.groupsListCall (listRequest none) :: Event.groupsListReturn (okPage first)
          :: groupsTraffic (laterEvents first.2 later) := by
  rw [groupsTraffic_append, groupsTraffic_append]
  have h : groupsTraffic (firstEvents first) = [] := by
    by_cases hp : first.1 = []
    · simp [firstEvents, hp, groupsTraffic, Event.isGroupsTraffic]
    · simp only [firstEvents, hp, if_false, groupsTraffic_rowsEvents]
  rw [h]
  rfl

/-- C3: for a chain of `n ≥ 1` pages, the first `n - 1` with a non-empty
continuation token and the last with an empty one, and every remote call
succeeding, the report ends normally; it has sent exactly `n` `Groups.List`
requests and received the `n` pages in order; the last `Groups.List` event of
the run is the arrival of the last page, so no request follows the page with
the empty token; and the answers the service holds beyond the chain are left
untouched. -/
theorem C3_pagination_terminates (first : Page) (later : List Page)
    (moreGroups : List (Response Groups)) (moreMembers : List (Response Members))
    (hmid : ∀ t ∈ (first.2 :: later.map Prod.snd).dropLast, t ≠ "")
    (hlast : (first.2 :: later.map Prod.snd).getLast? = some "") :
    (report (scripted (first :: later) moreGroups moreMembers)).outcome = Outcome.done
    ∧ (groupsCalls
        (report (scripted (first :: later) moreGroups moreMembers)).events).length
        = (first :: later).length
    ∧ groupsReturns (report (scripted (first :: later) moreGroups moreMembers)).events
        = (first :: later).map okPage
    ∧ (groupsTraffic
        (report (scripted (first :: later) moreGroups moreMembers)).events).getLast?
        = (first :: later).getLast?.map (fun p => Event.groupsListReturn (okPage p))
    ∧ (report (scripted (first :: later) moreGroups moreMembers)).remote
        = ⟨moreGroups, moreMembers⟩ := by
  have hrun := report_pages first later moreGroups moreMembers
    (chain_of_tokens _ _ hmid hlast)
  rw [hrun]
  refine ⟨rfl, ?_, ?_, ?_, rfl⟩
  · rw [groupsCalls_eq, traffic_report_pages]
    simp [Event.groupsCall, traffic_calls]
  · rw [groupsReturns_eq, traffic_report_pages]
    simp [Event.groupsReturn, traffic_returns]
  · show (groupsTraffic _).getLast? = _
    rw [traffic_report_pages]
    cases later with
    | nil => rfl
    | cons q qs =>
      have h := traffic_last (q :: qs) first.2
      simp only [List.getLast?_cons_cons] at h ⊢
      cases hq : (q :: qs).getLast? with
      | none => simp at hq
      | some x =>
        rw [hq] at h
        exact getLast?_cons_of_some _ _ _ (getLast?_cons_of_some _ _ _ h)

/-- C3 at a chain of two pages: tokens `t` and the empty token. -/
theorem C3_pagination_terminates_witness :
    ((∀ t ∈ (("t" : String) :: List.map Prod.snd [(([], "") : Page)]).dropLast, t ≠ "")
      ∧ (("t" : String) :: List.map Prod.snd [(([], "") : Page)]).getLast? = some "")
    ∧ (report (scripted [([(g1, g1Members)], "t"), ([], "")] [] [])).outcome
        = Outcome.done
    ∧ (groupsCalls
        (report (scripted [([(g1, g1Members)], "t"), ([], "")] [] [])).events).length
        = [(([(g1, g1Members)], "t") : Page), ([], "")].length
    ∧ groupsReturns (report (scripted [([(g1, g1Members)], "t"), ([], "")] [] [])).events
        = [(([(g1, g1Members)], "t") : Page), ([], "")].map okPage
    ∧ (groupsTraffic
        (report (scripted [([(g1, g1Members)], "t"), ([], "")] [] [])).events).getLast?
        = [(([(g1, g1Members)], "t") : Page), ([], "")].getLast?.map
            (fun p => Event.groupsListReturn (okPage p))
    ∧ (report (scripted [([(g1, g1Members)], "t"), ([], "")] [] [])).remote
        = ⟨[], []⟩ :=
  ⟨⟨by decide, by decide⟩,
    C3_pagination_terminates ([(g1, g1Members)], "t") [([], "")] [] []
      (by decide) (by decide)⟩

/-! ## A first page without groups -/

/-- C5: when the first `Groups.List` page has no group and an empty
continuation token, the complete output of the report is the header line, made
of six column names separated by commas, followed by the line
`No groups found.`; the run ends normally after the one `Groups.List` request,
prints no data row and never calls `Members.List`. -/
theorem C5_no_groups (answers : List (Response Groups))
    (members : List (Response Members)) :
    stdoutOf (report ⟨Response.ok ⟨[], ""⟩ :: answers, members⟩).events
      = "ID,名前,アドレス,グループ人数,別名,メンバー\nNo groups found.\n"
    ∧ header
      = ",".intercalate ["ID", "名前", "アドレス", "グループ人数", "別名", "メンバー"] ++ "\n"
    ∧ (report ⟨Response.ok ⟨[], ""⟩ :: answers, members⟩).events
      = [Event.stdout header, Event.groupsListCall (listRequest none),
          Event.groupsListReturn (Response.ok ⟨[], ""⟩), Event.stdout "No groups found.\n"]
    ∧ membersCalls (report ⟨Response.ok ⟨[], ""⟩ :: answers, members⟩).events = []
    ∧ (report ⟨Response.ok ⟨[], ""⟩ :: answers, members⟩).outcome = Outcome.done
    ∧ (report ⟨Response.ok ⟨[], ""⟩ :: answers, members⟩).remote = ⟨answers, members⟩ := by
  have h : report ⟨Response.ok ⟨[], ""⟩ :: answers, members⟩
      = ⟨[Event.stdout header, Event.groupsListCall (listRequest none),
          Event.groupsListReturn (Response.ok ⟨[], ""⟩), Event.stdout "No groups found.\n"],
        Outcome.done, ⟨answers, members⟩⟩ := by
    rw [report_empty _ _ _ rfl, pageLoop_stop _ _ _ rfl]
    rfl
  rw [h]
  refine ⟨?_, by decide, rfl, rfl, rfl, rfl⟩
  show stdoutOf [Event.stdout header, Event.groupsListCall (listRequest none),
      Event.groupsListReturn (Response.ok ⟨[], ""⟩), Event.stdout "No groups found.\n"]
    = "ID,名前,アドレス,グループ人数,別名,メンバー\nNo groups found.\n"
  decide

/-- C4, as the claim states it, fails: the first page has no group and carries
the token `t`; after the notice the report sends a second `Groups.List` request
with that token and prints the row of the group on the second page. -/
theorem C4_counterexample :
    ¬ ((report ⟨[Response.ok ⟨[], "t"⟩, Response.ok ⟨[g1], ""⟩],
          [Response.ok g1Members]⟩).events
        = [Event.stdout header, Event.groupsListCall (listRequest none),
            Event.groupsListReturn (Response.ok ⟨[], "t"⟩),
            Event.stdout "No groups found.\n"])
    ∧ groupsCalls (report ⟨[Response.ok ⟨[], "t"⟩, Response.ok ⟨[g1], ""⟩],
          [Response.ok g1Members]⟩).events
        = [listRequest none, listRequest (some "t")]
    ∧ stdoutOf (report ⟨[Response.ok ⟨[], "t"⟩, Response.ok ⟨[g1], ""⟩],
          [Response.ok g1Members]⟩).events
        = header ++ "No groups found.\n"
          ++ "g1,Eng,eng@co.com,2,\"\",\"a@co.com,b@co.com\"\n" := by
  refine ⟨by decide, by decide, by decide⟩

/-- C4, amended: when the first page has no group, the report prints the
`No groups found.` notice right after receiving the page and then enters the
pagination loop with that page; with an empty continuation token the run stops
there, with no further `Groups.List` request and nothing after the notice; with
a non-empty token the next event is the `Groups.List` request carrying that
token. -/
theorem C4_empty_first_page (tok : String) (answers : List (Response Groups))
    (members : List (Response Members)) :
    (report ⟨Response.ok ⟨[], tok⟩ :: answers, members⟩).events
      = [Event.stdout header, Event.groupsListCall (listRequest none),
          Event.groupsListReturn (Response.ok ⟨[], tok⟩), Event.stdout "No groups found.\n"]
        ++ (pageLoop answers ⟨[], tok⟩ members).events
    ∧ (tok = "" →
        report ⟨Response.ok ⟨[], tok⟩ :: answers, members⟩
          = ⟨[Event.stdout header, Event.groupsListCall (listRequest none),
              Event.groupsListReturn (Response.ok ⟨[], tok⟩),
              Event.stdout "No groups found.\n"],
            Outcome.done, ⟨answers, members⟩⟩)
    ∧ (tok ≠ "" →
        ∃ rest, (report ⟨Response.ok ⟨[], tok⟩ :: answers, members⟩).events
          = [Event.stdout header, Event.groupsListCall (listRequest none),
              Event.groupsListReturn (Response.ok ⟨[], tok⟩),
              Event.stdout "No groups found.\n",
              Event.groupsListCall (listRequest (some tok))] ++ rest) := by
  have h := report_empty ⟨[], tok⟩ answers members rfl
  refine ⟨by rw [h]; rfl, ?_, ?_⟩
  · intro htok
    rw [h, pageLoop_stop answers ⟨[], tok⟩ members htok]
    rfl
  · intro htok
    rw [h]
    have hne : (⟨[], tok⟩ : Groups).NextPageToken ≠ "" := htok
    cases answers with
    | nil => exact ⟨[], by rw [pageLoop_hang _ _ hne]; rfl⟩
    | cons a answers =>
      cases a with
      | error err => exact ⟨_, by rw [pageLoop_error _ _ _ _ hne]; rfl⟩
      | ok p =>
        by_cases hp : p.Groups = []
        · exact ⟨_, by rw [pageLoop_empty _ _ _ _ hne hp]; rfl⟩
        · rw [pageLoop_groups _ _ _ _ hne hp]
          cases (getGroupsInfo p ⟨answers, members⟩).outcome <;> exact ⟨_, rfl⟩

/-- C4, amended, at a first page without groups: once with the empty token, once
with the token `t`. -/
theorem C4_empty_first_page_witness :
    report ⟨[Response.ok ⟨[], ""⟩], []⟩
        = ⟨[Event.stdout header, Event.groupsListCall (listRequest none),
            Event.groupsListReturn (Response.ok ⟨[], ""⟩),
            Event.stdout "No groups found.\n"],
          Outcome.done, ⟨[], []⟩⟩
    ∧ ∃ rest, (report ⟨[Response.ok ⟨[], "t"⟩], []⟩).events
        = [Event.stdout header, Event.groupsListCall (listRequest none),
            Event.groupsListReturn (Response.ok ⟨[], "t"⟩),
            Event.stdout "No groups found.\n",
            Event.groupsListCall (listRequest (some "t"))] ++ rest :=
  ⟨(C4_empty_first_page "" [] []).2.1 rfl,
    (C4_empty_first_page "t" [] []).2.2 (by decide)⟩

/-! ## A later page without groups -/

theorem pageLoop_next_rows (next : Page) (more : List (Response Groups)) (r : Groups)
    (moreMembers : List (Response Members)) (h : r.NextPageToken ≠ "")
    (hp : next.1 ≠ []) :
    pageLoop (okPage next :: more) r (next.1.map okMembers ++ moreMembers)
      = ⟨[Event.groupsListCall (listRequest (some r.NextPageToken)),
            Event.groupsListReturn (okPage next)]
            ++ rowsEvents next.1 ++ (pageLoop more next.groups moreMembers).events,
          (pageLoop more next.groups moreMembers).outcome,
          (pageLoop more next.groups moreMembers).remote⟩ := by
  show pageLoop (Response.ok next.groups :: more) r _ = _
  rw [pageLoop_groups _ _ _ _ h (by simpa [Page.groups] using hp)]
  have hinfo : getGroupsInfo next.groups ⟨more, next.1.map okMembers ++ moreMembers⟩
      = ⟨rowsEvents next.1, Outcome.done, ⟨more, moreMembers⟩⟩ :=
    groupLoop_all next.1 more moreMembers
  rw [hinfo]
  rfl

/-- C6: when the pagination loop receives a page after the first that has no
group, it prints the `Empty Groups returned` notice once and no data row, does
not abort, and goes on as the loop does from that page: with an empty
continuation token the run ends normally there; with a non-empty token the next
page is requested with that token and the rows of its groups are printed.  In
the scenario of the specification (a first page with one group and a token, a
second page without groups and without token) the output is the header, the
row of the group and the notice, and the run ends normally. -/
theorem C6_empty_later_page (r : Groups) (tok : String)
    (answers : List (Response Groups)) (members : List (Response Members))
    (h : r.NextPageToken ≠ "") :
    (pageLoop (Response.ok ⟨[], tok⟩ :: answers) r members).events
      = [Event.groupsListCall (listRequest (some r.NextPageToken)),
          Event.groupsListReturn (Response.ok ⟨[], tok⟩),
          Event.stdout
            "Unable to retrieve next page in the list: Empty Groups returned.\n"]
        ++ (pageLoop answers ⟨[], tok⟩ members).events
    ∧ (pageLoop (Response.ok ⟨[], tok⟩ :: answers) r members).outcome
      = (pageLoop answers ⟨[], tok⟩ members).outcome
    ∧ (tok = "" →
        pageLoop (Response.ok ⟨[], tok⟩ :: answers) r members
          = ⟨[Event.groupsListCall (listRequest (some r.NextPageToken)),
              Event.groupsListReturn (Response.ok ⟨[], tok⟩),
              Event.stdout
                "Unable to retrieve next page in the list: Empty Groups returned.\n"],
            Outcome.done, ⟨answers, members⟩⟩)
    ∧ (tok ≠ "" → ∀ (next : Page) (more : List (Response Groups))
        (moreMembers : List (Response Members)), next.1 ≠ [] →
        (pageLoop (Response.ok ⟨[], tok⟩ :: okPage next :: more) r
            (next.1.map okMembers ++ moreMembers)).events
          = [Event.groupsListCall (listRequest (some r.NextPageToken)),
              Event.groupsListReturn (Response.ok ⟨[], tok⟩),
              Event.stdout
                "Unable to retrieve next page in the list: Empty Groups returned.\n",
              Event.groupsListCall (listRequest (some tok)),
              Event.groupsListReturn (okPage next)]
            ++ rowsEvents next.1 ++ (pageLoop more next.groups moreMembers).events
        ∧ stdoutOf (rowsEvents next.1)
          = linesText (next.1.map fun p => Line.row p.1 p.2))
    ∧ stdoutOf (report ⟨[Response.ok ⟨[g1], "t"⟩, Response.ok ⟨[], ""⟩],
          [Response.ok g1Members]⟩).events
        = "ID,名前,アドレス,グループ人数,別名,メンバー\n"
          ++ "g1,Eng,eng@co.com,2,\"\",\"a@co.com,b@co.com\"\n"
          ++ "Unable to retrieve next page in the list: Empty Groups returned.\n"
    ∧ (report ⟨[Response.ok ⟨[g1], "t"⟩, Response.ok ⟨[], ""⟩],
          [Response.ok g1Members]⟩).outcome = Outcome.done := by
  have hstep := fun (ans : List (Response Groups)) (ms : List (Response Members)) =>
    pageLoop_empty ⟨[], tok⟩ ans r ms h rfl
  refine ⟨by rw [hstep]; rfl, by rw [hstep], ?_, ?_, by decide, by decide⟩
  · intro htok
    rw [hstep, pageLoop_stop answers ⟨[], tok⟩ members htok]
    rfl
  · intro htok next more moreMembers hp
    have hne : (⟨[], tok⟩ : Groups).NextPageToken ≠ "" := htok
    refine ⟨?_, stdoutOf_rowsEvents next.1⟩
    rw [hstep, pageLoop_next_rows next more ⟨[], tok⟩ moreMembers hne hp]
    rfl

/-- C6 at the page `g1` with token `t` followed by a page without groups and
without token. -/
theorem C6_empty_later_page_witness :
    (⟨[g1], "t"⟩ : Groups).NextPageToken ≠ ""
    ∧ pageLoop [Response.ok ⟨[], ""⟩] ⟨[g1], "t"⟩ []
        = ⟨[Event.groupsListCall (listRequest (some "t")),
            Event.groupsListReturn (Response.ok ⟨[], ""⟩),
            Event.stdout
              "Unable to retrieve next page in the list: Empty Groups returned.\n"],
          Outcome.done, ⟨[], []⟩⟩ :=
  ⟨by decide, (C6_empty_later_page ⟨[g1], "t"⟩ "" [] [] (by decide)).2.2.1 rfl⟩

/-! ## The requests of every run -/

theorem groupLoop_traffic (groups : List Group) :
    ∀ srv : Remote, groupsTraffic (groupLoop groups srv).events = [] := by
  induction groups with
  | nil => intro _; rfl
  | cons u rest ih =>
    intro srv
    obtain ⟨answers, members⟩ := srv
    cases members with
    | nil => rw [groupLoop_cons_nil]; exact groupsTraffic_rowHead u
    | cons a members =>
      cases a with
      | error err =>
        rw [groupLoop_cons_error]
        show groupsTraffic (rowHead u ++ _) = []
        rw [groupsTraffic_append, groupsTraffic_rowHead]
        rfl
      | ok m =>
        rw [groupLoop_cons_ok]
        show groupsTraffic (rowEvents (u, m) ++ _) = []
        have h := groupsTraffic_rowsEvents [(u, m)]
        simp only [rowsEvents, List.append_nil] at h
        rw [groupsTraffic_append, h, ih]
        rfl

theorem groupsCalls_cons_call (c : GroupsListCall) (events : List Event) :
    groupsCalls (Event.groupsListCall c :: events) = c :: groupsCalls events :=
  rfl

theorem groupsCalls_cons_return (resp : Response Groups) (events : List Event) :
    groupsCalls (Event.groupsListReturn resp :: events) = groupsCalls events :=
  rfl

theorem groupsCalls_cons_stdout (text : String) (events : List Event) :
    groupsCalls (Event.stdout text :: events) = groupsCalls events :=
  rfl

theorem groupsReturns_cons_call (c : GroupsListCall) (events : List Event) :
    groupsReturns (Event.groupsListCall c :: events) = groupsReturns events :=
  rfl

theorem groupsReturns_cons_return (resp : Response Groups) (events : List Event) :
    groupsReturns (Event.groupsListReturn resp :: events) = resp :: groupsReturns events :=
  rfl

theorem groupsReturns_cons_stdout (text : String) (events : List Event) :
    groupsReturns (Event.stdout text :: events) = groupsReturns events :=
  rfl

theorem groupsCalls_quiet (quiet rest : List Event) (h : groupsTraffic quiet = []) :
    groupsCalls (quiet ++ rest) = groupsCalls rest := by
  rw [groupsCalls_eq, groupsTraffic_append, h, List.nil_append, ← groupsCalls_eq]

theorem groupsReturns_quiet (quiet rest : List Event) (h : groupsTraffic quiet = []) :
    groupsReturns (quiet ++ rest) = groupsReturns rest := by
  rw [groupsReturns_eq, groupsTraffic_append, h, List.nil_append, ← groupsReturns_eq]

theorem linked_nil (tok : Option String) (returns : List (Response Groups)) :
    Linked tok [] returns := by
  refine ⟨?_, ?_, ?_⟩
  · intro c hc; simp at hc
  · intro c hc; simp at hc
  · intro i c hc; simp at hc

theorem linked_single (tok : Option String) (returns : List (Response Groups)) :
    Linked tok [listRequest tok] returns := by
  refine ⟨?_, ?_, ?_⟩
  · intro c hc
    simp only [List.mem_singleton] at hc
    rw [hc]
    rfl
  · intro c hc
    simp only [List.head?_cons, Option.some.injEq] at hc
    rw [← hc]
    rfl
  · intro i c hc; simp at hc

theorem linked_cons (tok : Option String) (p : Groups) (calls : List GroupsListCall)
    (returns : List (Response Groups))
    (h : Linked (some p.NextPageToken) calls returns)
    (hne : calls ≠ [] → p.NextPageToken ≠ "") :
    Linked tok (listRequest tok :: calls) (Response.ok p :: returns) := by
  obtain ⟨hall, hhead, hnext⟩ := h
  refine ⟨?_, ?_, ?_⟩
  · intro c hc
    rcases List.mem_cons.mp hc with hc | hc
    · rw [hc]; rfl
    · exact hall c hc
  · intro c hc
    simp only [List.head?_cons, Option.some.injEq] at hc
    rw [← hc]
    rfl
  · intro i c hc
    cases i with
    | zero =>
      have hc0 : calls.head? = some c := by
        cases calls with
        | nil => simp at hc
        | cons a l => simpa using hc
      have hcalls : calls ≠ [] := by
        intro hnil
        rw [hnil] at hc0
        simp at hc0
      exact ⟨p, by simp, hne hcalls, hhead c hc0⟩
    | succ k =>
      have hk : calls[k + 1]? = some c := by simpa using hc
      obtain ⟨page, hpage, hp, htok⟩ := hnext k c hk
      exact ⟨page, by simpa using hpage, hp, htok⟩

theorem pageLoop_linked (answers : List (Response Groups)) :
    ∀ (r : Groups) (members : List (Response Members)),
      Linked (some r.NextPageToken)
          (groupsCalls (pageLoop answers r members).events)
          (groupsReturns (pageLoop answers r members).events)
        ∧ (groupsCalls (pageLoop answers r members).events ≠ [] →
            r.NextPageToken ≠ "") := by
  induction answers with
  | nil =>
    intro r members
    by_cases h : r.NextPageToken = ""
    · rw [pageLoop_stop _ _ _ h]
      exact ⟨linked_nil _ _, fun hc => absurd rfl hc⟩
    · rw [pageLoop_hang _ _ h]
      exact ⟨linked_single _ _, fun _ => h⟩
  | cons a answers ih =>
    intro r members
    by_cases h : r.NextPageToken = ""
    · rw [pageLoop_stop _ _ _ h]
      exact ⟨linked_nil _ _, fun hc => absurd rfl hc⟩
    · refine ⟨?_, fun _ => h⟩
      cases a with
      | error err =>
        rw [pageLoop_error _ _ _ _ h]
        exact linked_single _ _
      | ok p =>
        by_cases hp : p.Groups = []
        · rw [pageLoop_empty _ _ _ _ h hp]
          obtain ⟨hl, hne⟩ := ih p members
          exact linked_cons _ p _ _ hl hne
        · rw [pageLoop_groups _ _ _ _ h hp]
          have hq : groupsTraffic (getGroupsInfo p ⟨answers, members⟩).events = [] :=
            groupLoop_traffic _ _
          split
          · obtain ⟨hl, hne⟩ := ih p
              (getGroupsInfo p ⟨answers, members⟩).remote.membersList
            have hc := groupsCalls_quiet _
              (pageLoop answers p
                (getGroupsInfo p ⟨answers, members⟩).remote.membersList).events hq
            have hr := groupsReturns_quiet _
              (pageLoop answers p
                (getGroupsInfo p ⟨answers, members⟩).remote.membersList).events hq
            simp only [List.cons_append, List.nil_append, List.append_assoc,
              groupsCalls_cons_call, groupsCalls_cons_return, groupsReturns_cons_call,
              groupsReturns_cons_return, hc, hr]
            exact linked_cons _ p _ _ hl hne
          · have hc := groupsCalls_quiet _ [] hq
            have hr := groupsReturns_quiet _ [] hq
            simp only [List.append_nil] at hc hr
            simp only [List.cons_append, List.nil_append,
              groupsCalls_cons_call, groupsCalls_cons_return, groupsReturns_cons_call,
              groupsReturns_cons_return, hc, hr]
            exact linked_cons _ p _ _ (linked_nil _ _) (fun hc => absurd rfl hc)

theorem groupsTraffic_cons_call (c : GroupsListCall) (events : List Event) :
    groupsTraffic (Event.groupsListCall c :: events)
      = Event.groupsListCall c :: groupsTraffic events :=
  rfl

theorem groupsTraffic_cons_return (resp : Response Groups) (events : List Event) :
    groupsTraffic (Event.groupsListReturn resp :: events)
      = Event.groupsListReturn resp :: groupsTraffic events :=
  rfl

theorem groupsTraffic_cons_stdout (text : String) (events : List Event) :
    groupsTraffic (Event.stdout text :: events) = groupsTraffic events :=
  rfl

theorem paired_nil (tok : Option String) : Paired tok [] := by
  refine ⟨?_, ?_, ?_⟩
  · intro e he; simp at he
  · intro j c hc; simp at hc
  · intro j resp hr; simp at hr

theorem paired_call (tok : Option String) :
    Paired tok [Event.groupsListCall (listRequest tok)] := by
  refine ⟨?_, ?_, ?_⟩
  · intro e he
    simp only [List.head?_cons, Option.some.injEq] at he
    exact he.symm
  · intro j c hc; simp at hc
  · intro j resp hr; simp at hr

theorem paired_cons (tok : Option String) (resp : Response Groups)
    (traffic : List Event)
    (h : ∀ p, resp = Response.ok p → Paired (some p.NextPageToken) traffic)
    (herr : (∀ p, resp ≠ Response.ok p) → traffic = []) :
    Paired tok (Event.groupsListCall (listRequest tok)
      :: Event.groupsListReturn resp :: traffic) := by
  refine ⟨?_, ?_, ?_⟩
  · intro e he
    simp only [List.head?_cons, Option.some.injEq] at he
    exact he.symm
  · intro j c hc
    cases resp with
    | error err =>
      have hnil := herr (fun p hp => by cases hp)
      subst hnil
      cases j with
      | zero => simp at hc
      | succ k => simp at hc
    | ok p =>
      obtain ⟨hhead, hcall, _⟩ := h p rfl
      cases j with
      | zero => simp at hc
      | succ k =>
        cases k with
        | zero =>
          have h0 : traffic.head? = some (Event.groupsListCall c) := by
            cases traffic with
            | nil => simp at hc
            | cons a l => simpa using hc
          have hc' := hhead _ h0
          injection hc' with hc'
          exact ⟨p, by simp, by rw [hc']; rfl⟩
        | succ m =>
          have hm : traffic[m + 1]? = some (Event.groupsListCall c) := by simpa using hc
          obtain ⟨page, hpage, htok⟩ := hcall m c hm
          exact ⟨page, by simpa using hpage, htok⟩
  · intro j r hr
    cases j with
    | zero => exact ⟨listRequest tok, rfl⟩
    | succ k =>
      cases resp with
      | error err =>
        have hnil := herr (fun p hp => by cases hp)
        subst hnil
        simp at hr
      | ok p =>
        obtain ⟨hhead, _, hret⟩ := h p rfl
        cases k with
        | zero =>
          have h0 : traffic.head? = some (Event.groupsListReturn r) := by
            cases traffic with
            | nil => simp at hr
            | cons a l => simpa using hr
          have hc' := hhead _ h0
          cases hc'
        | succ m =>
          have hm : traffic[m + 1]? = some (Event.groupsListReturn r) := by
            simpa using hr
          obtain ⟨c, hc⟩ := hret m r hm
          exact ⟨c, by simpa using hc⟩

theorem pageLoop_paired (answers : List (Response Groups)) :
    ∀ (r : Groups) (members : List (Response Members)),
      Paired (some r.NextPageToken)
        (groupsTraffic (pageLoop answers r members).events) := by
  induction answers with
  | nil =>
    intro r members
    by_cases h : r.NextPageToken = ""
    · rw [pageLoop_stop _ _ _ h]
      exact paired_nil _
    · rw [pageLoop_hang _ _ h]
      exact paired_call _
  | cons a answers ih =>
    intro r members
    by_cases h : r.NextPageToken = ""
    · rw [pageLoop_stop _ _ _ h]
      exact paired_nil _
    · cases a with
      | error err =>
        rw [pageLoop_error _ _ _ _ h]
        exact paired_cons _ _ [] (fun p hp => by cases hp) (fun _ => rfl)
      | ok p =>
        by_cases hp : p.Groups = []
        · rw [pageLoop_empty _ _ _ _ h hp]
          refine paired_cons _ _ _ (fun q hq => ?_) (fun hne => absurd rfl (hne p))
          cases hq
          exact ih p members
        · rw [pageLoop_groups _ _ _ _ h hp]
          have hq : groupsTraffic (getGroupsInfo p ⟨answers, members⟩).events = [] :=
            groupLoop_traffic _ _
          split
          · simp only [List.cons_append, List.nil_append, List.append_assoc,
              groupsTraffic_cons_call, groupsTraffic_cons_return, groupsTraffic_append,
              hq]
            refine paired_cons _ _ _ (fun q hq => ?_) (fun hne => absurd rfl (hne p))
            cases hq
            exact ih p _
          · simp only [List.cons_append, List.nil_append,
              groupsTraffic_cons_call, groupsTraffic_cons_return, hq]
            exact paired_cons _ _ [] (fun q _ => paired_nil _) (fun _ => rfl)

theorem report_paired (srv : Remote) :
    Paired none (groupsTraffic (report srv).events) := by
  obtain ⟨answers, members⟩ := srv
  cases answers with
  | nil => rw [report_nil]; exact paired_call _
  | cons a answers =>
    cases a with
    | error err =>
      rw [report_error]
      exact paired_cons _ _ [] (fun p hp => by cases hp) (fun _ => rfl)
    | ok p =>
      by_cases hp : p.Groups = []
      · rw [report_empty _ _ _ hp]
        refine paired_cons _ _ _ (fun q hq => ?_) (fun hne => absurd rfl (hne p))
        cases hq
        exact pageLoop_paired answers p members
      · rw [report_groups _ _ _ hp]
        have hq : groupsTraffic (getGroupsInfo p ⟨answers, members⟩).events = [] :=
          groupLoop_traffic _ _
        split
        · simp only [List.cons_append, List.nil_append, List.append_assoc,
            groupsTraffic_cons_stdout, groupsTraffic_cons_call,
            groupsTraffic_cons_return, groupsTraffic_append, hq]
          refine paired_cons _ _ _ (fun q hq => ?_) (fun hne => absurd rfl (hne p))
          cases hq
          exact pageLoop_paired answers p _
        · simp only [List.cons_append, List.nil_append, groupsTraffic_cons_stdout,
            groupsTraffic_cons_call, groupsTraffic_cons_return, hq]
          exact paired_cons _ _ [] (fun q _ => paired_nil _) (fun _ => rfl)

theorem report_linked (srv : Remote) :
    Linked none (groupsCalls (report srv).events) (groupsReturns (report srv).events)
      ∧ (groupsCalls (report srv).events).head? = some (listRequest none) := by
  obtain ⟨answers, members⟩ := srv
  cases answers with
  | nil => rw [report_nil]; exact ⟨linked_single _ _, rfl⟩
  | cons a answers =>
    cases a with
    | error err => rw [report_error]; exact ⟨linked_single _ _, rfl⟩
    | ok p =>
      by_cases hp : p.Groups = []
      · rw [report_empty _ _ _ hp]
        obtain ⟨hl, hne⟩ := pageLoop_linked answers p members
        exact ⟨linked_cons _ p _ _ hl hne, rfl⟩
      · rw [report_groups _ _ _ hp]
        have hq : groupsTraffic (getGroupsInfo p ⟨answers, members⟩).events = [] :=
          groupLoop_traffic _ _
        split
        · obtain ⟨hl, hne⟩ := pageLoop_linked answers p
            (getGroupsInfo p ⟨answers, members⟩).remote.membersList
          have hc := groupsCalls_quiet _
            (pageLoop answers p
              (getGroupsInfo p ⟨answers, members⟩).remote.membersList).events hq
          have hr := groupsReturns_quiet _
            (pageLoop answers p
              (getGroupsInfo p ⟨answers, members⟩).remote.membersList).events hq
          simp only [List.cons_append, List.nil_append, List.append_assoc,
            groupsCalls_cons_stdout, groupsReturns_cons_stdout,
            groupsCalls_cons_call, groupsCalls_cons_return, groupsReturns_cons_call,
            groupsReturns_cons_return, hc, hr]
          exact ⟨linked_cons _ p _ _ hl hne, rfl⟩
        · have hc := groupsCalls_quiet _ [] hq
          have hr := groupsReturns_quiet _ [] hq
          simp only [List.append_nil] at hc hr
          simp only [List.cons_append, List.nil_append,
            groupsCalls_cons_stdout, groupsReturns_cons_stdout,
            groupsCalls_cons_call, groupsCalls_cons_return, groupsReturns_cons_call,
            groupsReturns_cons_return, hc, hr]
          exact ⟨linked_cons _ p _ _ (linked_nil _ _) (fun hc => absurd rfl hc), rfl⟩

/-- C7: in every run of the report, whatever the service answers, the first
`Groups.List` request carries no page token; every later request comes right
after the arrival of a page, which answers the request right before it, and
carries exactly the continuation token of that page; the request of rank
`i + 1` carries the token of the page in the answer of rank `i`; and every
request uses the customer `my_customer`, the page size 500, which does not
exceed 500, and the sort key `email`. -/
theorem C7_requests (srv : Remote) :
    (groupsTraffic (report srv).events).head?
      = some (Event.groupsListCall ⟨"my_customer", 500, "email", none⟩)
    ∧ (∀ j c, (groupsTraffic (report srv).events)[j + 1]? = some (Event.groupsListCall c) →
        ∃ page c0,
          (groupsTraffic (report srv).events)[j]?
              = some (Event.groupsListReturn (Response.ok page))
            ∧ (groupsTraffic (report srv).events)[j - 1]?
              = some (Event.groupsListCall c0)
            ∧ 1 ≤ j
            ∧ c.pageToken = some page.NextPageToken)
    ∧ (∀ i c, (groupsCalls (report srv).events)[i + 1]? = some c →
        ∃ page, (groupsReturns (report srv).events)[i]? = some (Response.ok page)
          ∧ c.pageToken = some page.NextPageToken)
    ∧ (∀ c ∈ groupsCalls (report srv).events,
        c.customer = "my_customer" ∧ c.maxResults = 500 ∧ c.maxResults ≤ 500
          ∧ c.orderBy = "email") := by
  obtain ⟨hhead, hcall, hret⟩ := report_paired srv
  obtain ⟨⟨hall, _, hnext⟩, hfirst⟩ := report_linked srv
  refine ⟨?_, ?_, ?_, ?_⟩
  · cases ht : (groupsTraffic (report srv).events).head? with
    | none =>
      have hc := groupsCalls_eq (report srv).events
      rw [List.head?_eq_none_iff.mp ht] at hc
      rw [hc] at hfirst
      simp at hfirst
    | some e => rw [hhead e ht]; rfl
  · intro j c hc
    obtain ⟨page, hpage, htok⟩ := hcall j c hc
    cases j with
    | zero =>
      have h0 : (groupsTraffic (report srv).events).head?
          = some (Event.groupsListReturn (Response.ok page)) := by
        rw [← hpage, List.head?_eq_getElem?]
      have := hhead _ h0
      cases this
    | succ k =>
      obtain ⟨c0, hc0⟩ := hret k _ hpage
      exact ⟨page, c0, hpage, by simpa using hc0, by omega, htok⟩
  · intro i c hc
    obtain ⟨page, hpage, _, htok⟩ := hnext i c hc
    exact ⟨page, hpage, htok⟩
  · intro c hc
    have h := hall c hc
    rw [h]
    exact ⟨rfl, rfl, le_refl _, rfl⟩

/-! ## Failures of remote calls -/

theorem clean_append (a b : List Event) : Clean (a ++ b) ↔ Clean a ∧ Clean b := by
  simp only [Clean, List.mem_append]
  constructor
  · intro h
    exact ⟨fun e he => h e (Or.inl he), fun e he => h e (Or.inr he)⟩
  · rintro ⟨ha, hb⟩ e (he | he)
    · exact ha e he
    · exact hb e he

theorem clean_rowHead (u : Group) : Clean (rowHead u) := by
  intro e he
  rcases rowHead_shape u e he with ⟨t, rfl⟩ | rfl <;> rfl

theorem clean_rowTail (m : Members) : Clean (rowTail m) := by
  intro e he
  rcases rowTail_shape m e he with ⟨t, rfl⟩
  rfl

theorem clean_rowEvents (p : Group × Members) : Clean (rowEvents p) := by
  unfold rowEvents
  rw [clean_append, clean_append]
  refine ⟨⟨clean_rowHead _, ?_⟩, clean_rowTail _⟩
  intro e he
  simp only [List.mem_singleton] at he
  rw [he]
  rfl

theorem sound_after (quiet : List Event) (lines : List Line) (hq : Clean quiet)
    (hl : stdoutOf quiet = linesText lines) (events : List Event) (outcome : Outcome)
    (h : Sound events outcome) : Sound (quiet ++ events) outcome := by
  cases outcome with
  | done =>
    obtain ⟨hc, ls, hls⟩ := h
    exact ⟨(clean_append _ _).mpr ⟨hq, hc⟩, lines ++ ls,
      by rw [stdoutOf_append, linesText_append, hl, hls]⟩
  | hang => exact (clean_append _ _).mpr ⟨hq, h⟩
  | fatal msg =>
    obtain ⟨init, ls, hc, hls, hform⟩ := h
    refine ⟨quiet ++ init, lines ++ ls, (clean_append _ _).mpr ⟨hq, hc⟩,
      by rw [stdoutOf_append, linesText_append, hl, hls], ?_⟩
    rcases hform with ⟨c, err, hev, hmsg⟩ | ⟨u, err, hev, hmsg⟩
    · exact Or.inl ⟨c, err, by rw [hev, List.append_assoc], hmsg⟩
    · exact Or.inr ⟨u, err, by rw [hev]; simp only [List.append_assoc], hmsg⟩

theorem groupLoop_sound (groups : List Group) :
    ∀ srv : Remote, Sound (groupLoop groups srv).events (groupLoop groups srv).outcome := by
  induction groups with
  | nil => intro _; exact ⟨fun e he => by simp [groupLoop] at he, [], rfl⟩
  | cons u rest ih =>
    intro srv
    obtain ⟨answers, members⟩ := srv
    cases members with
    | nil => rw [groupLoop_cons_nil]; exact clean_rowHead u
    | cons a members =>
      cases a with
      | error err =>
        rw [groupLoop_cons_error]
        exact ⟨[], [], fun e he => by simp at he, rfl, Or.inr ⟨u, err, rfl, rfl⟩⟩
      | ok m =>
        rw [groupLoop_cons_ok]
        refine sound_after _ [Line.row u m] (clean_rowEvents _) ?_ _ _ (ih _)
        show stdoutOf (rowHead u ++ [Event.membersListReturn (Response.ok m)]
          ++ rowTail m) = _
        rw [stdoutOf_row]
        simp only [linesText, Line.text, String.append_empty]

theorem pageLoop_sound (answers : List (Response Groups)) :
    ∀ (r : Groups) (members : List (Response Members)),
      Sound (pageLoop answers r members).events
        (pageLoop answers r members).outcome := by
  have hstop : Sound [] Outcome.done := ⟨fun e he => by simp at he, [], rfl⟩
  induction answers with
  | nil =>
    intro r members
    by_cases h : r.NextPageToken = ""
    · rw [pageLoop_stop _ _ _ h]; exact hstop
    · rw [pageLoop_hang _ _ h]
      intro e he
      simp only [List.mem_singleton] at he
      rw [he]; rfl
  | cons a answers ih =>
    intro r members
    by_cases h : r.NextPageToken = ""
    · rw [pageLoop_stop _ _ _ h]; exact hstop
    · cases a with
      | error err =>
        rw [pageLoop_error _ _ _ _ h]
        exact ⟨[], [], fun e he => by simp at he, rfl,
          Or.inl ⟨_, err, rfl, Or.inr rfl⟩⟩
      | ok p =>
        have hhead : Clean [Event.groupsListCall (listRequest (some r.NextPageToken)),
            Event.groupsListReturn (Response.ok p)] := by
          intro e he
          simp only [List.mem_cons, List.mem_singleton, List.not_mem_nil, or_false] at he
          rcases he with rfl | rfl <;> rfl
        by_cases hp : p.Groups = []
        · rw [pageLoop_empty _ _ _ _ h hp]
          refine sound_after _ [Line.emptyPageLine] ?_ ?_ _ _ (ih p members)
          · intro e he
            simp only [List.mem_cons, List.mem_singleton, List.not_mem_nil, or_false] at he
            rcases he with rfl | rfl | rfl <;> rfl
          · simp only [stdoutOf, linesText, Line.text]
        · rw [pageLoop_groups _ _ _ _ h hp]
          have hinfo := groupLoop_sound p.Groups ⟨answers, members⟩
          split
          next hdone =>
            unfold getGroupsInfo at hdone
            rw [hdone] at hinfo
            obtain ⟨hc, ls, hls⟩ := hinfo
            refine sound_after _ ls ((clean_append _ _).mpr ⟨hhead, hc⟩) ?_ _ _ (ih p _)
            rw [stdoutOf_append]
            simp only [stdoutOf, String.empty_append]
            exact hls
          next stop _ =>
            exact sound_after _ [] hhead rfl _ _ hinfo

theorem report_sound (srv : Remote) :
    Sound (report srv).events (report srv).outcome := by
  obtain ⟨answers, members⟩ := srv
  cases answers with
  | nil =>
    rw [report_nil]
    intro e he
    simp only [List.mem_cons, List.mem_singleton, List.not_mem_nil, or_false] at he
    rcases he with rfl | rfl <;> rfl
  | cons a answers =>
    cases a with
    | error err =>
      rw [report_error]
      refine ⟨[Event.stdout header], [Line.headerLine], ?_, ?_,
        Or.inl ⟨_, err, rfl, Or.inl rfl⟩⟩
      · intro e he
        simp only [List.mem_singleton] at he
        rw [he]; rfl
      · simp only [stdoutOf, linesText, Line.text]
    | ok p =>
      have hhead : Clean [Event.stdout header, Event.groupsListCall (listRequest none),
          Event.groupsListReturn (Response.ok p)] := by
        intro e he
        simp only [List.mem_cons, List.mem_singleton, List.not_mem_nil, or_false] at he
        rcases he with rfl | rfl | rfl <;> rfl
      have htext : stdoutOf [Event.stdout header,
          Event.groupsListCall (listRequest none),
          Event.groupsListReturn (Response.ok p)] = linesText [Line.headerLine] := by
        simp only [stdoutOf, linesText, Line.text]
      by_cases hp : p.Groups = []
      · rw [report_empty _ _ _ hp]
        refine sound_after _ [Line.headerLine, Line.noGroupsLine] ?_ ?_ _ _
          (pageLoop_sound answers p members)
        · intro e he
          simp only [List.mem_cons, List.mem_singleton, List.not_mem_nil, or_false] at he
          rcases he with rfl | rfl | rfl | rfl <;> rfl
        · simp only [stdoutOf, linesText, Line.text]
      · rw [report_groups _ _ _ hp]
        have hinfo := groupLoop_sound p.Groups ⟨answers, members⟩
        split
        next hdone =>
          unfold getGroupsInfo at hdone
          rw [hdone] at hinfo
          obtain ⟨hc, ls, hls⟩ := hinfo
          refine sound_after _ (Line.headerLine :: ls)
            ((clean_append _ _).mpr ⟨hhead, hc⟩) ?_ _ _ (pageLoop_sound answers p _)
          rw [stdoutOf_append, htext, hls]
          simp only [linesText, String.append_empty]
        next stop _ =>
          exact sound_after _ [Line.headerLine] hhead htext _ _ hinfo

theorem membersReturns_append (a b : List Event) :
    membersReturns (a ++ b) = membersReturns a ++ membersReturns b := by
  simp [membersReturns]

theorem groupsReturns_append (a b : List Event) :
    groupsReturns (a ++ b) = groupsReturns a ++ groupsReturns b := by
  simp [groupsReturns]

theorem membersReturns_rowHead (u : Group) : membersReturns (rowHead u) = [] := by
  rw [membersReturns, List.filterMap_eq_nil_iff]
  intro e he
  rcases rowHead_shape u e he with ⟨t, rfl⟩ | rfl <;> rfl

theorem membersReturns_rowTail (m : Members) : membersReturns (rowTail m) = [] := by
  rw [membersReturns, List.filterMap_eq_nil_iff]
  intro e he
  rcases rowTail_shape m e he with ⟨t, rfl⟩
  rfl

theorem groupLoop_consumes (groups : List Group) :
    ∀ srv : Remote,
      membersReturns (groupLoop groups srv).events
          ++ (groupLoop groups srv).remote.membersList = srv.membersList
        ∧ (groupLoop groups srv).remote.groupsList = srv.groupsList := by
  induction groups with
  | nil => intro _; exact ⟨rfl, rfl⟩
  | cons u rest ih =>
    intro srv
    obtain ⟨answers, members⟩ := srv
    cases members with
    | nil =>
      rw [groupLoop_cons_nil]
      exact ⟨by simp only [membersReturns_rowHead, List.nil_append], rfl⟩
    | cons a members =>
      cases a with
      | error err =>
        rw [groupLoop_cons_error]
        refine ⟨?_, rfl⟩
        simp only [membersReturns_append, membersReturns_rowHead, List.nil_append]
        rfl
      | ok m =>
        rw [groupLoop_cons_ok]
        obtain ⟨hm, hg⟩ := ih ⟨answers, members⟩
        refine ⟨?_, hg⟩
        simp only [rowEvents, membersReturns_append, membersReturns_rowHead,
          membersReturns_rowTail, List.nil_append, List.append_nil, List.append_assoc]
        rw [hm]
        rfl

theorem membersReturns_cons_call (c : GroupsListCall) (events : List Event) :
    membersReturns (Event.groupsListCall c :: events) = membersReturns events :=
  rfl

theorem membersReturns_cons_return (resp : Response Groups) (events : List Event) :
    membersReturns (Event.groupsListReturn resp :: events) = membersReturns events :=
  rfl

theorem membersReturns_cons_stdout (text : String) (events : List Event) :
    membersReturns (Event.stdout text :: events) = membersReturns events :=
  rfl

theorem pageLoop_consumes (answers : List (Response Groups)) :
    ∀ (r : Groups) (members : List (Response Members)),
      groupsReturns (pageLoop answers r members).events
          ++ (pageLoop answers r members).remote.groupsList = answers
        ∧ membersReturns (pageLoop answers r members).events
          ++ (pageLoop answers r members).remote.membersList = members := by
  induction answers with
  | nil =>
    intro r members
    by_cases h : r.NextPageToken = ""
    · rw [pageLoop_stop _ _ _ h]; exact ⟨rfl, rfl⟩
    · rw [pageLoop_hang _ _ h]; exact ⟨rfl, rfl⟩
  | cons a answers ih =>
    intro r members
    by_cases h : r.NextPageToken = ""
    · rw [pageLoop_stop _ _ _ h]; exact ⟨rfl, rfl⟩
    · cases a with
      | error err => rw [pageLoop_error _ _ _ _ h]; exact ⟨rfl, rfl⟩
      | ok p =>
        by_cases hp : p.Groups = []
        · rw [pageLoop_empty _ _ _ _ h hp]
          obtain ⟨hg, hm⟩ := ih p members
          simp only [List.cons_append, List.nil_append, groupsReturns_cons_call,
            groupsReturns_cons_return, groupsReturns_cons_stdout,
            membersReturns_cons_call, membersReturns_cons_return,
            membersReturns_cons_stdout, hg, hm, and_self]
        · rw [pageLoop_groups _ _ _ _ h hp]
          have hq : groupsReturns (getGroupsInfo p ⟨answers, members⟩).events = [] := by
            rw [groupsReturns_eq, getGroupsInfo, groupLoop_traffic]
            rfl
          obtain ⟨him, hig⟩ := groupLoop_consumes p.Groups ⟨answers, members⟩
          split
          · obtain ⟨hg, hm⟩ := ih p
              (getGroupsInfo p ⟨answers, members⟩).remote.membersList
            simp only [List.cons_append, List.nil_append, List.append_assoc,
              groupsReturns_cons_call, groupsReturns_cons_return,
              membersReturns_cons_call, membersReturns_cons_return,
              groupsReturns_append, membersReturns_append, hq, hg, hm, true_and]
            exact him
          · simp only [List.cons_append, List.nil_append,
              groupsReturns_cons_call, groupsReturns_cons_return,
              membersReturns_cons_call, membersReturns_cons_return, hq]
            exact ⟨congrArg _ hig, him⟩

theorem report_consumes (srv : Remote) :
    groupsReturns (report srv).events ++ (report srv).remote.groupsList
        = srv.groupsList
      ∧ membersReturns (report srv).events ++ (report srv).remote.membersList
        = srv.membersList := by
  obtain ⟨answers, members⟩ := srv
  cases answers with
  | nil => exact ⟨rfl, rfl⟩
  | cons a answers =>
    cases a with
    | error err => exact ⟨rfl, rfl⟩
    | ok p =>
      by_cases hp : p.Groups = []
      · rw [report_empty _ _ _ hp]
        obtain ⟨hg, hm⟩ := pageLoop_consumes answers p members
        simp only [List.cons_append, List.nil_append, groupsReturns_cons_call,
          groupsReturns_cons_return, groupsReturns_cons_stdout,
          membersReturns_cons_call, membersReturns_cons_return,
          membersReturns_cons_stdout, hg, hm, and_self]
      · rw [report_groups _ _ _ hp]
        have hq : groupsReturns (getGroupsInfo p ⟨answers, members⟩).events = [] := by
          rw [groupsReturns_eq, getGroupsInfo, groupLoop_traffic]
          rfl
        obtain ⟨him, hig⟩ := groupLoop_consumes p.Groups ⟨answers, members⟩
        split
        · obtain ⟨hg, hm⟩ := pageLoop_consumes answers p
            (getGroupsInfo p ⟨answers, members⟩).remote.membersList
          simp only [List.cons_append, List.nil_append, List.append_assoc,
            groupsReturns_cons_call, groupsReturns_cons_return,
            groupsReturns_cons_stdout, membersReturns_cons_call,
            membersReturns_cons_return, membersReturns_cons_stdout,
            groupsReturns_append, membersReturns_append, hq, hg, hm, true_and]
          exact him
        · simp only [List.cons_append, List.nil_append,
            groupsReturns_cons_call, groupsReturns_cons_return,
            groupsReturns_cons_stdout, membersReturns_cons_call,
            membersReturns_cons_return, membersReturns_cons_stdout, hq]
          exact ⟨congrArg _ hig, him⟩

theorem failure_is_last (clean : List Event) (f e : Event) (hc : Clean clean)
    (he : e.isFailure = true) :
    ∀ pre post : List Event, pre ++ e :: post = clean ++ [f] →
      pre = clean ∧ post = [] := by
  induction clean with
  | nil =>
    intro pre post h
    cases pre with
    | nil =>
      simp only [List.nil_append, List.cons.injEq] at h
      exact ⟨rfl, h.2⟩
    | cons b pre =>
      simp only [List.cons_append, List.nil_append, List.cons.injEq] at h
      exact absurd h.2 (by simp)
  | cons a clean ih =>
    intro pre post h
    cases pre with
    | nil =>
      simp only [List.nil_append, List.cons_append, List.cons.injEq] at h
      have ha := hc a (List.mem_cons_self _ _)
      rw [← h.1, he] at ha
      cases ha
    | cons b pre =>
      simp only [List.cons_append, List.cons.injEq] at h
      obtain ⟨hpre, hpost⟩ := ih (fun x hx => hc x (List.mem_cons_of_mem _ hx)) pre post h.2
      exact ⟨by rw [h.1, hpre], hpost⟩

theorem getLast?_rowHead (init : List Event) (u : Group) :
    (init ++ rowHead u).getLast? = some (Event.membersListCall u.Id) := by
  have h : init ++ rowHead u
      = (init ++ ([Event.stdout (u.Id ++ "," ++ u.Name ++ "," ++ u.Email ++ ","
            ++ toString u.DirectMembersCount ++ ","), Event.stdout "\""]
          ++ aliasLoop u.Aliases.length 1 u.Aliases))
        ++ [Event.stdout "\",", Event.membersListCall u.Id] := by
    simp only [rowHead, List.append_assoc]
  rw [h, List.getLast?_append]
  rfl

/-- C8: in every run of the report, whatever the service answers, the failure
of a remote call (`Groups.List` or `Members.List`) is the last event of the run:
the run ends in `log.Fatalf`, no event follows the failure, so the failed call
is not repeated, no other remote call is made and nothing more is printed; no
call has failed before; and the event right before the failure is the request
that failed.  The answers that the run has received are, in order, the first
answers of the service, so the failure is the first failing answer that the
run has asked for. -/
theorem C8_failure_aborts (srv : Remote) (pre post : List Event) (e : Event)
    (hsplit : (report srv).events = pre ++ e :: post) (hfail : e.isFailure = true) :
    post = []
    ∧ (∃ msg, (report srv).outcome = Outcome.fatal msg)
    ∧ (∀ x ∈ pre, x.isFailure = false)
    ∧ (∃ c, pre.getLast? = some c ∧ c.isCall = true)
    ∧ groupsReturns (report srv).events ++ (report srv).remote.groupsList
      = srv.groupsList
    ∧ membersReturns (report srv).events ++ (report srv).remote.membersList
      = srv.membersList := by
  obtain ⟨hcg, hcm⟩ := report_consumes srv
  have hs := report_sound srv
  have hmem : e ∈ (report srv).events := by rw [hsplit]; simp
  cases hout : (report srv).outcome with
  | done =>
    rw [hout] at hs
    have := hs.1 e hmem
    rw [hfail] at this
    cases this
  | hang =>
    rw [hout] at hs
    have := hs e hmem
    rw [hfail] at this
    cases this
  | fatal msg =>
    rw [hout] at hs
    obtain ⟨init, ls, hc, _, hform⟩ := hs
    rcases hform with ⟨c, err, hev, _⟩ | ⟨u, err, hev, _⟩
    · have hclean : Clean (init ++ [Event.groupsListCall c]) := by
        rw [clean_append]
        refine ⟨hc, ?_⟩
        intro x hx
        simp only [List.mem_singleton] at hx
        rw [hx]; rfl
      have heq : pre ++ e :: post
          = (init ++ [Event.groupsListCall c])
            ++ [Event.groupsListReturn (Response.error err)] := by
        rw [← hsplit, hev]; simp
      obtain ⟨hpre, hpost⟩ := failure_is_last _ _ e hclean hfail pre post heq
      refine ⟨hpost, ⟨msg, rfl⟩, by rw [hpre]; exact hclean,
        ⟨Event.groupsListCall c, by rw [hpre]; simp, rfl⟩, hcg, hcm⟩
    · have hclean : Clean (init ++ rowHead u) :=
        (clean_append _ _).mpr ⟨hc, clean_rowHead u⟩
      have heq : pre ++ e :: post
          = (init ++ rowHead u) ++ [Event.membersListReturn (Response.error err)] := by
        rw [← hsplit, hev]
      obtain ⟨hpre, hpost⟩ := failure_is_last _ _ e hclean hfail pre post heq
      refine ⟨hpost, ⟨msg, rfl⟩, by rw [hpre]; exact hclean,
        ⟨Event.membersListCall u.Id, by rw [hpre]; exact getLast?_rowHead init u, rfl⟩,
        hcg, hcm⟩

/-- C8 at the service `failingMembers`: the failure of `Members.List` for `g1` is
the last event. -/
theorem C8_failure_aborts_witness :
    ((report failingMembers).events
        = ([Event.stdout header, Event.groupsListCall (listRequest none),
            Event.groupsListReturn (Response.ok ⟨[g1], ""⟩)] ++ rowHead g1)
          ++ Event.membersListReturn (Response.error "boom") :: []
      ∧ (Event.membersListReturn (Response.error "boom")).isFailure = true)
    ∧ (([] : List Event) = []
      ∧ (∃ msg, (report failingMembers).outcome = Outcome.fatal msg)
      ∧ (∀ x ∈ [Event.stdout header, Event.groupsListCall (listRequest none),
            Event.groupsListReturn (Response.ok ⟨[g1], ""⟩)] ++ rowHead g1,
          x.isFailure = false)
      ∧ (∃ c, ([Event.stdout header, Event.groupsListCall (listRequest none),
            Event.groupsListReturn (Response.ok ⟨[g1], ""⟩)] ++ rowHead g1).getLast?
            = some c ∧ c.isCall = true)
      ∧ groupsReturns (report failingMembers).events
          ++ (report failingMembers).remote.groupsList = failingMembers.groupsList
      ∧ membersReturns (report failingMembers).events
          ++ (report failingMembers).remote.membersList
        = failingMembers.membersList) :=
  ⟨⟨by decide, by decide⟩,
    C8_failure_aborts failingMembers
      ([Event.stdout header, Event.groupsListCall (listRequest none),
        Event.groupsListReturn (Response.ok ⟨[g1], ""⟩)] ++ rowHead g1)
      [] (Event.membersListReturn (Response.error "boom")) (by decide) (by decide)⟩

/-- C10, as the claim states it, fails: `Members.List` fails for the only
group of the first page; at the abort the output is the header followed by the
first five columns of the row of that group, with no member column and no line
terminator. -/
theorem C10_counterexample :
    (report failingMembers).outcome
      = Outcome.fatal "Unable to retrieve users in domain: boom"
    ∧ stdoutOf (report failingMembers).events
      = "ID,名前,アドレス,グループ人数,別名,メンバー\n" ++ "g1,Eng,eng@co.com,2,\"\","
    ∧ stdoutOf (report failingMembers).events
      ≠ "ID,名前,アドレス,グループ人数,別名,メンバー\n"
    ∧ (stdoutOf (report failingMembers).events).data.getLast? ≠ some '\n' := by
  refine ⟨by decide, by decide, by decide, by decide⟩

/-- C10, amended: when the report aborts on the failure of a remote call, the
output printed before the call that failed is made of whole lines (the header,
the notices and complete rows of six columns); if the call that failed is
`Groups.List`, that is the whole output; if it is `Members.List` for a group,
the output ends with the first five columns of the row of that group, each
followed by its comma, without member column and without line terminator. -/
theorem C10_output_at_abort (srv : Remote) (msg : String)
    (h : (report srv).outcome = Outcome.fatal msg) :
    ∃ lines : List Line,
      (∃ err,
        (msg = "Unable to retrieve group lists in domain: " ++ err
          ∨ msg = "Unable to retrieve next page in the list: " ++ err)
        ∧ (report srv).events.getLast?
          = some (Event.groupsListReturn (Response.error err))
        ∧ stdoutOf (report srv).events = linesText lines)
      ∨ (∃ u err,
        msg = "Unable to retrieve users in domain: " ++ err
        ∧ (report srv).events.getLast?
          = some (Event.membersListReturn (Response.error err))
        ∧ (membersCalls (report srv).events).getLast? = some u.Id
        ∧ stdoutOf (report srv).events = linesText lines ++ rowStart u) := by
  have hs := report_sound srv
  rw [h] at hs
  obtain ⟨init, ls, _, hls, hform⟩ := hs
  refine ⟨ls, ?_⟩
  rcases hform with ⟨c, err, hev, hmsg⟩ | ⟨u, err, hev, hmsg⟩
  · refine Or.inl ⟨err, hmsg, by rw [hev]; simp, ?_⟩
    rw [hev, stdoutOf_append, hls]
    simp only [stdoutOf, String.append_empty]
  · refine Or.inr ⟨u, err, hmsg, by rw [hev]; simp, ?_, ?_⟩
    · rw [hev, membersCalls_append, membersCalls_append, membersCalls_rowHead]
      simp [membersCalls, Event.membersCall]
    · rw [hev, stdoutOf_append, stdoutOf_append, hls, stdoutOf_rowHead]
      simp only [stdoutOf, String.append_empty]

/-- C10, amended, at the service `failingMembers`. -/
theorem C10_output_at_abort_witness :
    (report failingMembers).outcome
        = Outcome.fatal "Unable to retrieve users in domain: boom"
    ∧ ∃ lines : List Line,
      (∃ err,
        ("Unable to retrieve users in domain: boom"
            = "Unable to retrieve group lists in domain: " ++ err
          ∨ "Unable to retrieve users in domain: boom"
            = "Unable to retrieve next page in the list: " ++ err)
        ∧ (report failingMembers).events.getLast?
          = some (Event.groupsListReturn (Response.error err))
        ∧ stdoutOf (report failingMembers).events = linesText lines)
      ∨ (∃ u err,
        "Unable to retrieve users in domain: boom"
          = "Unable to retrieve users in domain: " ++ err
        ∧ (report failingMembers).events.getLast?
          = some (Event.membersListReturn (Response.error err))
        ∧ (membersCalls (report failingMembers).events).getLast? = some u.Id
        ∧ stdoutOf (report failingMembers).events = linesText lines ++ rowStart u) :=
  ⟨by decide, C10_output_at_abort failingMembers _ (by decide)⟩

/-- C7 at the service `twoPages`: the second request carries the token `t` of
the first page. -/
theorem C7_requests_witness :
    ∃ page c0,
      (groupsTraffic (report twoPages).events)[1]?
          = some (Event.groupsListReturn (Response.ok page))
        ∧ (groupsTraffic (report twoPages).events)[1 - 1]?
          = some (Event.groupsListCall c0)
        ∧ 1 ≤ 1
        ∧ (listRequest (some "t")).pageToken = some page.NextPageToken :=
  (C7_requests twoPages).2.1 1 (listRequest (some "t")) (by decide)

/-! ## The token cache -/

theorem tokenFromFile_ok (w : Outside) (fs : Files) (file : String) (tok : Token) :
    tokenFromFile w fs file = Response.ok tok
      ↔ ∃ content, fs file = Response.ok content
          ∧ w.decodeToken content = Response.ok tok := by
  unfold tokenFromFile
  cases h : fs file with
  | error err => simp
  | ok content => simp

theorem getClient_cached (w : Outside) (fs : Files) (config : Config) (tok : Token)
    (h : tokenFromFile w fs "token.json" = Response.ok tok) :
    getClient w fs config = ⟨[], Response.ok ⟨config, tok⟩, fs⟩ := by
  simp only [getClient, h]

theorem getTokenFromWeb_shape (w : Outside) (config : Config) :
    ∃ text rest, (getTokenFromWeb w config).1 = Event.stdout text :: Event.scan :: rest
      ∧ (rest = [] ∨ ∃ authCode, rest = [Event.exchange authCode]) := by
  unfold getTokenFromWeb
  dsimp only
  split
  · exact ⟨_, [], rfl, Or.inl rfl⟩
  · split
    · exact ⟨_, _, rfl, Or.inr ⟨_, rfl⟩⟩
    · exact ⟨_, _, rfl, Or.inr ⟨_, rfl⟩⟩

theorem getTokenFromWeb_events (w : Outside) (config : Config) :
    (getTokenFromWeb w config).1.count Event.scan = 1
      ∧ fileWrites (getTokenFromWeb w config).1 = [] := by
  obtain ⟨text, rest, hev, hrest⟩ := getTokenFromWeb_shape w config
  rw [hev]
  rcases hrest with rfl | ⟨authCode, rfl⟩
  · exact ⟨by simp [List.count_cons], rfl⟩
  · exact ⟨by simp [List.count_cons], rfl⟩

theorem getClient_fresh (w : Outside) (fs : Files) (config : Config) (err : String)
    (h : tokenFromFile w fs "token.json" = Response.error err) :
    getClient w fs config
      = match getTokenFromWeb w config with
        | (web, Response.error msg) => ⟨web, Response.error msg, fs⟩
        | (web, Response.ok tok) =>
          match w.openFile "token.json" with
          | Response.error e =>
            ⟨web ++ [Event.stdout ("Saving credential file to: " ++ "token.json" ++ "\n")],
              Response.error ("Unable to cache oauth token: " ++ e), fs⟩
          | Response.ok _ =>
            ⟨web ++ [Event.stdout ("Saving credential file to: " ++ "token.json" ++ "\n"),
                Event.fileWrite "token.json" (w.encodeToken tok)],
              Response.ok ⟨config, tok⟩, fs.put "token.json" (w.encodeToken tok)⟩ := by
  simp only [getClient, h]
  rcases hweb : getTokenFromWeb w config with ⟨web, _ | msg⟩
  · simp only [saveToken]
    cases w.openFile "token.json" <;> rfl
  · rfl

theorem files_put_same (fs : Files) (path data : String) :
    fs.put path data path = Response.ok data := by
  simp [Files.put]

theorem files_put_other (fs : Files) (path data other : String) (h : other ≠ path) :
    fs.put path data other = fs other := by
  simp [Files.put, h]

theorem fileWrites_append (a b : List Event) :
    fileWrites (a ++ b) = fileWrites a ++ fileWrites b := by
  simp [fileWrites]

theorem fileWrites_quiet (events : List Event)
    (h : ∀ e ∈ events, (∃ text, e = Event.stdout text) ∨ e.isCall = true
      ∨ (∃ resp, e = Event.groupsListReturn resp)
      ∨ (∃ resp, e = Event.membersListReturn resp)) :
    fileWrites events = [] := by
  rw [fileWrites, List.filterMap_eq_nil_iff]
  intro e he
  rcases h e he with ⟨t, rfl⟩ | hc | ⟨r, rfl⟩ | ⟨r, rfl⟩
  · rfl
  · cases e <;> first | rfl | cases hc
  · rfl
  · rfl

theorem fileWrites_rowHead (u : Group) : fileWrites (rowHead u) = [] := by
  apply fileWrites_quiet
  intro e he
  rcases rowHead_shape u e he with h | rfl
  · exact Or.inl h
  · exact Or.inr (Or.inl rfl)

theorem fileWrites_rowTail (m : Members) : fileWrites (rowTail m) = [] :=
  fileWrites_quiet _ fun e he => Or.inl (rowTail_shape m e he)

theorem groupLoop_writes (groups : List Group) :
    ∀ srv : Remote, fileWrites (groupLoop groups srv).events = [] := by
  induction groups with
  | nil => intro _; rfl
  | cons u rest ih =>
    intro srv
    obtain ⟨answers, members⟩ := srv
    cases members with
    | nil => rw [groupLoop_cons_nil]; exact fileWrites_rowHead u
    | cons a members =>
      cases a with
      | error err =>
        rw [groupLoop_cons_error]
        show fileWrites (rowHead u ++ _) = []
        rw [fileWrites_append, fileWrites_rowHead]
        rfl
      | ok m =>
        rw [groupLoop_cons_ok]
        show fileWrites (rowHead u ++ [Event.membersListReturn (Response.ok m)]
          ++ rowTail m ++ _) = []
        rw [fileWrites_append, fileWrites_append, fileWrites_append,
          fileWrites_rowHead, fileWrites_rowTail, ih]
        rfl

theorem pageLoop_writes (answers : List (Response Groups)) :
    ∀ (r : Groups) (members : List (Response Members)),
      fileWrites (pageLoop answers r members).events = [] := by
  induction answers with
  | nil =>
    intro r members
    by_cases h : r.NextPageToken = ""
    · rw [pageLoop_stop _ _ _ h]; rfl
    · rw [pageLoop_hang _ _ h]; rfl
  | cons a answers ih =>
    intro r members
    by_cases h : r.NextPageToken = ""
    · rw [pageLoop_stop _ _ _ h]; rfl
    · cases a with
      | error err => rw [pageLoop_error _ _ _ _ h]; rfl
      | ok p =>
        by_cases hp : p.Groups = []
        · rw [pageLoop_empty _ _ _ _ h hp]
          show fileWrites (_ ++ _) = []
          rw [fileWrites_append, ih]
          rfl
        · rw [pageLoop_groups _ _ _ _ h hp]
          have hinfo : fileWrites (getGroupsInfo p ⟨answers, members⟩).events = [] :=
            groupLoop_writes _ _
          split
          · show fileWrites (_ ++ _ ++ _) = []
            rw [fileWrites_append, fileWrites_append, hinfo, ih]
            rfl
          · show fileWrites (_ ++ _) = []
            rw [fileWrites_append, hinfo]
            rfl

theorem report_writes (srv : Remote) : fileWrites (report srv).events = [] := by
  obtain ⟨answers, members⟩ := srv
  cases answers with
  | nil => rfl
  | cons a answers =>
    cases a with
    | error err => rfl
    | ok p =>
      by_cases hp : p.Groups = []
      · rw [report_empty _ _ _ hp]
        show fileWrites (_ ++ _) = []
        rw [fileWrites_append, pageLoop_writes]
        rfl
      · rw [report_groups _ _ _ hp]
        have hinfo : fileWrites (getGroupsInfo p ⟨answers, members⟩).events = [] :=
          groupLoop_writes _ _
        split
        · show fileWrites (_ ++ _ ++ _) = []
          rw [fileWrites_append, fileWrites_append, hinfo, pageLoop_writes]
          rfl
        · show fileWrites (_ ++ _) = []
          rw [fileWrites_append, hinfo]
          rfl

theorem getClient_writes (w : Outside) (fs : Files) (config : Config) :
    (fileWrites (getClient w fs config).events).length ≤ 1
      ∧ ∀ x ∈ fileWrites (getClient w fs config).events, x.1 = "token.json" := by
  obtain ⟨_, hquiet⟩ := getTokenFromWeb_events w config
  cases htf : tokenFromFile w fs "token.json" with
  | ok tok => rw [getClient_cached w fs config tok htf]; simp [fileWrites]
  | error err =>
    rw [getClient_fresh w fs config err htf]
    rcases hweb : getTokenFromWeb w config with ⟨web, tok | msg⟩
    · rw [hweb] at hquiet
      simp only [fileWrites] at hquiet
      cases hopen : w.openFile "token.json" <;>
        simp [fileWrites, List.filterMap_append, hquiet, Event.written]
    · rw [hweb] at hquiet
      simp only [fileWrites] at hquiet
      simp [fileWrites, hquiet]

theorem main_writes (w : Outside) (fs : Files) :
    (fileWrites (main w fs).events).length ≤ 1
      ∧ ∀ x ∈ fileWrites (main w fs).events, x.1 = "token.json" := by
  have hnone : (fileWrites []).length ≤ 1 ∧ ∀ x ∈ fileWrites [], x.1 = "token.json" :=
    ⟨by simp [fileWrites], fun x hx => by simp [fileWrites] at hx⟩
  cases hb : fs "credentials.json" with
  | error err =>
    simp only [main, hb]
    exact hnone
  | ok b =>
    cases hc : w.configFromJSON b AdminDirectoryGroupReadonlyScope with
    | error err =>
      simp only [main, hb, hc]
      exact hnone
    | ok config =>
      have hw := getClient_writes w fs config
      cases hres : (getClient w fs config).result with
      | error msg =>
        simp only [main, hb, hc, hres]
        exact hw
      | ok client =>
        cases hn : w.adminNew client with
        | error err =>
          simp only [main, hb, hc, hres, hn]
          exact hw
        | ok u =>
          simp only [main, hb, hc, hres, hn, fileWrites_append, report_writes,
            List.append_nil]
          exact hw

/-- C9, as the claim states it, fails: the cache file holds content that does
not decode, the interactive flow returns `webToken`, and the cache file cannot
be opened for writing.  `saveToken` ends the run with `log.Fatalf`: no client
is returned, nothing is written, and the old content of the cache file stays. -/
theorem C9_counterexample :
    tokenFromFile lockedOutside staleFiles "token.json"
      = Response.error "invalid character"
    ∧ (getTokenFromWeb lockedOutside demoConfig).2 = Response.ok webToken
    ∧ (getClient lockedOutside staleFiles demoConfig).events.count Event.scan = 1
    ∧ (getClient lockedOutside staleFiles demoConfig).result
      = Response.error "Unable to cache oauth token: permission denied"
    ∧ fileWrites (getClient lockedOutside staleFiles demoConfig).events = []
    ∧ (getClient lockedOutside staleFiles demoConfig).files "token.json"
      = Response.ok "stale"
    ∧ ¬ ((getClient lockedOutside staleFiles demoConfig).files "token.json"
          = Response.ok (lockedOutside.encodeToken webToken)
        ∧ (getClient lockedOutside staleFiles demoConfig).result
          = Response.ok ⟨demoConfig, webToken⟩) := by
  refine ⟨by decide, by decide, by decide, by decide, by decide, by decide, by decide⟩

/-- C9, amended: `getClient` on an explicit state of the files.  If loading the
cached token succeeds (the cache file can be read and its content decodes), the
client is bound to the loaded token, nothing is printed, read from standard
input, exchanged or written, and the files are unchanged.  If loading fails
(the file cannot be read or does not decode), the interactive flow is performed
exactly once; when it returns a token and the cache file opens for writing, the
encoded token replaces the content of the cache file, no other file changes,
and the client is bound to that token; when it returns a token and the cache
file does not open for writing, the run ends in `log.Fatalf`, no client is
returned, nothing is written and the files are unchanged; and whenever
`getClient` returns a client after a failed load, that client is bound to the
token of the flow and the encoded token has replaced the content of the cache
file.  In every case `getClient`, and `main` as a whole, write a file at most
once, only when loading has failed, and the files change only by that write. -/
theorem C9_token_cache (w : Outside) (fs : Files) (config : Config) :
    (∀ tok, tokenFromFile w fs "token.json" = Response.ok tok →
        getClient w fs config = ⟨[], Response.ok ⟨config, tok⟩, fs⟩)
    ∧ (∀ err, tokenFromFile w fs "token.json" = Response.error err →
        (∃ rest, (getClient w fs config).events = (getTokenFromWeb w config).1 ++ rest)
        ∧ (getClient w fs config).events.count Event.scan = 1
        ∧ ∀ tok, (getTokenFromWeb w config).2 = Response.ok tok →
            w.openFile "token.json" = Response.ok () →
            (getClient w fs config).result = Response.ok ⟨config, tok⟩
            ∧ fileWrites (getClient w fs config).events
              = [("token.json", w.encodeToken tok)]
            ∧ (getClient w fs config).files "token.json"
              = Response.ok (w.encodeToken tok)
            ∧ ∀ path, path ≠ "token.json" →
                (getClient w fs config).files path = fs path)
    ∧ (∀ err client, tokenFromFile w fs "token.json" = Response.error err →
        (getClient w fs config).result = Response.ok client →
        ∃ tok, (getTokenFromWeb w config).2 = Response.ok tok
          ∧ client = ⟨config, tok⟩
          ∧ fileWrites (getClient w fs config).events
            = [("token.json", w.encodeToken tok)]
          ∧ (getClient w fs config).files "token.json"
            = Response.ok (w.encodeToken tok))
    ∧ (∀ err tok e, tokenFromFile w fs "token.json" = Response.error err →
        (getTokenFromWeb w config).2 = Response.ok tok →
        w.openFile "token.json" = Response.error e →
        (getClient w fs config).result
            = Response.error ("Unable to cache oauth token: " ++ e)
          ∧ fileWrites (getClient w fs config).events = []
          ∧ (getClient w fs config).files = fs)
    ∧ (fileWrites (getClient w fs config).events).length ≤ 1
    ∧ (fileWrites (main w fs).events).length ≤ 1
    ∧ (fileWrites (getClient w fs config).events ≠ [] →
        ∃ err, tokenFromFile w fs "token.json" = Response.error err)
    ∧ (fileWrites (getClient w fs config).events = [] →
        (getClient w fs config).files = fs)
    ∧ (∀ tok, tokenFromFile w fs "token.json" = Response.ok tok
        ↔ ∃ content, fs "token.json" = Response.ok content
            ∧ w.decodeToken content = Response.ok tok) := by
  obtain ⟨hscan, hquiet⟩ := getTokenFromWeb_events w config
  have hfresh := getClient_fresh w fs config
  refine ⟨getClient_cached w fs config, ?_, ?_, ?_, (getClient_writes w fs config).1,
    (main_writes w fs).1, ?_, ?_, tokenFromFile_ok w fs "token.json"⟩
  swap
  · intro err client herr hres
    rw [hfresh err herr] at hres ⊢
    rcases hweb : getTokenFromWeb w config with ⟨web, tok | msg⟩
    · rw [hweb] at hquiet hres
      cases hopen : w.openFile "token.json" with
      | error e =>
        rw [hopen] at hres
        cases hres
      | ok u =>
        rw [hopen] at hres
        refine ⟨tok, rfl, ?_, ?_, files_put_same fs "token.json" (w.encodeToken tok)⟩
        · injection hres with hres
          exact hres.symm
        · show fileWrites (web ++ [_, _]) = _
          simp only [fileWrites, List.filterMap_append] at hquiet ⊢
          rw [hquiet]
          rfl
    · rw [hweb] at hres
      cases hres
  · intro err herr
    rw [hfresh err herr]
    rcases hweb : getTokenFromWeb w config with ⟨web, tok | msg⟩
    · rw [hweb] at hscan
      cases hopen : w.openFile "token.json" with
      | error e =>
        refine ⟨⟨_, rfl⟩, ?_, ?_⟩
        · show (web ++ [_]).count Event.scan = 1
          rw [List.count_append]
          simpa [List.count_cons] using hscan
        · intro tok' _ hcontra
          cases hcontra
      | ok u =>
        refine ⟨⟨_, rfl⟩, ?_, ?_⟩
        · show (web ++ [_, _]).count Event.scan = 1
          rw [List.count_append]
          simpa [List.count_cons] using hscan
        · intro tok' htok _
          cases htok
          rw [hweb] at hquiet
          refine ⟨rfl, ?_, files_put_same fs "token.json" (w.encodeToken tok),
            fun path hp => files_put_other fs "token.json" (w.encodeToken tok) path hp⟩
          show fileWrites (web ++ [_, _]) = _
          simp only [fileWrites, List.filterMap_append] at hquiet ⊢
          rw [hquiet]
          rfl
    · rw [hweb] at hscan
      exact ⟨⟨[], by simp⟩, hscan, fun tok' htok => by cases htok⟩
  · intro err tok e herr htok hopen
    rw [hfresh err herr]
    rcases hweb : getTokenFromWeb w config with ⟨web, tok' | msg⟩
    · rw [hweb] at hquiet
      rw [hopen]
      refine ⟨rfl, ?_, rfl⟩
      show fileWrites (web ++ [_]) = []
      simp only [fileWrites, List.filterMap_append] at hquiet ⊢
      rw [hquiet]
      rfl
    · rw [hweb] at htok
      cases htok
  · intro hne
    cases htf : tokenFromFile w fs "token.json" with
    | ok tok =>
      rw [getClient_cached w fs config tok htf] at hne
      exact absurd rfl hne
    | error err => exact ⟨err, rfl⟩
  · intro hnil
    cases htf : tokenFromFile w fs "token.json" with
    | ok tok => rw [getClient_cached w fs config tok htf]
    | error err =>
      rw [hfresh err htf] at hnil ⊢
      rcases hweb : getTokenFromWeb w config with ⟨web, tok | msg⟩
      · rw [hweb] at hnil
        cases hopen : w.openFile "token.json" with
        | error e => rfl
        | ok u =>
          rw [hopen] at hnil
          simp [fileWrites, List.filterMap_append, Event.written] at hnil
      · rfl

/-- C9, amended, at the outside parties of the examples: once with a decodable
cache file, once without cache file. -/
theorem C9_token_cache_witness :
    (tokenFromFile demoOutside cachedFiles "token.json" = Response.ok cachedToken
      ∧ getClient demoOutside cachedFiles demoConfig
        = ⟨[], Response.ok ⟨demoConfig, cachedToken⟩, cachedFiles⟩)
    ∧ (tokenFromFile demoOutside freshFiles "token.json"
        = Response.error "no such file or directory"
      ∧ (getTokenFromWeb demoOutside demoConfig).2 = Response.ok webToken
      ∧ demoOutside.openFile "token.json" = Response.ok ()
      ∧ (getClient demoOutside freshFiles demoConfig).result
        = Response.ok ⟨demoConfig, webToken⟩
      ∧ fileWrites (getClient demoOutside freshFiles demoConfig).events
        = [("token.json", demoOutside.encodeToken webToken)]
      ∧ (getClient demoOutside freshFiles demoConfig).files "token.json"
        = Response.ok (demoOutside.encodeToken webToken)
      ∧ ∀ path, path ≠ "token.json" →
          (getClient demoOutside freshFiles demoConfig).files path = freshFiles path) :=
  ⟨⟨by decide,
      (C9_token_cache demoOutside cachedFiles demoConfig).1 cachedToken (by decide)⟩,
    by decide, by decide, by decide,
    ((C9_token_cache demoOutside freshFiles demoConfig).2.1
      "no such file or directory" (by decide)).2.2 webToken (by decide) (by decide)⟩

/-! ## `main` as a whole -/

theorem main_report (w : Outside) (fs : Files) (b : String) (config : Config)
    (client : Client) (hb : fs "credentials.json" = Response.ok b)
    (hc : w.configFromJSON b AdminDirectoryGroupReadonlyScope = Response.ok config)
    (ha : (getClient w fs config).result = Response.ok client)
    (hn : w.adminNew client = Response.ok ()) :
    main w fs
      = ⟨(getClient w fs config).events ++ (report w.remote).events,
          (report w.remote).outcome, (getClient w fs config).files⟩ := by
  simp only [main, hb, hc, ha, hn]

theorem main_cached_example :
    stdoutOf (main demoOutside cachedFiles).events
        = header ++ "g1,Eng,eng@co.com,2,\"\",\"a@co.com,b@co.com\"\n"
          ++ "Unable to retrieve next page in the list: Empty Groups returned.\n"
      ∧ (main demoOutside cachedFiles).outcome = Outcome.done := by
  rw [main_report demoOutside cachedFiles "secret" demoConfig
    ⟨demoConfig, cachedToken⟩ (by decide) (by decide) (by decide) (by decide)]
  exact ⟨by decide, by decide⟩

end Quickstart
